import Mathlib

/-! Model / Material resource server (`backend/server.mjs`).

A shallow embedding of the Express handlers of `backend/server.mjs`:
the JavaScript value layer the handlers rely on (truthiness, `String(...)`,
`parseInt(_, 10)`, `isNaN`, `path.extname`), the record store reached through
the Prisma client, the upload directory reached through `fs`, and the route
handlers themselves as state-passing functions on a `World`.
-/

namespace Server

/-! ## JavaScript values arriving in a JSON body -/

/-- A value destructured from `req.body`.  `undefined` is an absent key.
`num n` is an integer-valued Number (exact for `|n| ≤ 2^53 - 1`; `-0` is `num 0`).
`float t` is any other Number (non-integer, or too large to be exact), given
by the text `String(...)` yields for it; such a Number is never `0` or `NaN`.
`obj t` is an object or array, given by the text `String(...)` yields for it,
or `none` when that conversion throws a `TypeError`. -/
inductive JsVal where
  | undefined
  | null
  | bool (b : Bool)
  | num (n : Int)
  | float (text : String)
  | str (s : String)
  | obj (text : Option String)
  deriving DecidableEq, Repr

/-- ToBoolean, as used by `!x`, `x || y`, `x ? a : b` and `if (x)`. -/
def truthy : JsVal → Bool
  | .undefined => false
  | .null => false
  | .bool b => b
  | .num n => decide (n ≠ 0)
  | .float _ => true
  | .str s => decide (s ≠ "")
  | .obj _ => true

/-- Decimal text of an integer-valued Number. -/
def numberToString (n : Int) : String :=
  match n with
  | Int.ofNat k => Nat.repr k
  | Int.negSucc k => "-" ++ Nat.repr (k + 1)

/-- The call `String(v)`; `none` when the conversion throws a `TypeError`. -/
def jsString : JsVal → Option String
  | .undefined => some "undefined"
  | .null => some "null"
  | .bool true => some "true"
  | .bool false => some "false"
  | .num n => some (numberToString n)
  | .float t => some t
  | .str s => some s
  | .obj t => t

/-- A Number as produced by `parseInt`: `NaN` or an integer. -/
inductive JsNum where
  | nan
  | int (n : Int)
  deriving DecidableEq, Repr

/-- The global `isNaN` on a Number. -/
def isNaN : JsNum → Bool
  | .nan => true
  | .int _ => false

/-- ToBoolean on a Number: `NaN` and `0` are falsy. -/
def JsNum.truthy : JsNum → Bool
  | .nan => false
  | .int n => decide (n ≠ 0)

/-- The characters `parseInt` skips at the start of its input (white space and
line terminators). -/
def isStrWhiteSpaceChar (c : Char) : Bool :=
  let n := c.toNat
  n = 0x09 || n = 0x0A || n = 0x0B || n = 0x0C || n = 0x0D || n = 0x20 ||
  n = 0xA0 || n = 0x1680 || (0x2000 ≤ n && n ≤ 0x200A) || n = 0x2028 ||
  n = 0x2029 || n = 0x202F || n = 0x205F || n = 0x3000 || n = 0xFEFF

/-- A decimal digit `0`..`9`. -/
def isDecDigit (c : Char) : Bool := '0'.toNat ≤ c.toNat && c.toNat ≤ '9'.toNat

/-- The value of a run of decimal digits, most significant first. -/
def digitsValue (ds : List Char) : Nat :=
  ds.foldl (fun acc c => 10 * acc + (c.toNat - '0'.toNat)) 0

/-- The call `parseInt(s, 10)` on a string: skip leading white space, read an
optional sign, then the longest run of decimal digits; `NaN` when that run is
empty.  Whatever follows the digits is ignored.  The integer is kept exact:
`parseInt` returns the nearest double, which differs beyond `2^53` (and is
`Infinity` beyond about 309 digits); which strings give `NaN` is the same. -/
def parseIntChars (s : List Char) : JsNum :=
  let t := s.dropWhile isStrWhiteSpaceChar
  let (neg, body) :=
    match t with
    | '-' :: r => (true, r)
    | '+' :: r => (false, r)
    | _ => (false, t)
  let ds := body.takeWhile isDecDigit
  if ds.isEmpty then JsNum.nan
  else if neg then JsNum.int (-(digitsValue ds : Int)) else JsNum.int (digitsValue ds)

/-- The call `parseInt(s, 10)` on a string. -/
def parseInt (s : String) : JsNum := parseIntChars s.toList

/-- The call `parseInt(v, 10)` on any value: the value is first converted with
`String(...)`; `none` when that conversion throws. -/
def parseIntVal (v : JsVal) : Option JsNum := (jsString v).map parseInt

/-! ## `path.extname` (POSIX) -/

/-- The loop variables of `path.extname`. -/
structure ExtState where
  startDot : Int
  startPart : Int
  endIdx : Int
  matchedSlash : Bool
  preDotState : Int
  deriving DecidableEq, Repr

/-- The backwards scan of `path.extname`: the argument lists the characters
with their indices, last character first.  Reaching a separator after a
non-separator was seen ends the scan. -/
def extnameLoop : List (Nat × Char) → ExtState → ExtState
  | [], st => st
  | (i, c) :: rest, st =>
    if c = '/' then
      if st.matchedSlash then extnameLoop rest st
      else { st with startPart := (i : Int) + 1 }
    else
      let st1 := if st.endIdx = -1 then
        { st with matchedSlash := false, endIdx := (i : Int) + 1 } else st
      let st2 :=
        if c = '.' then
          if st1.startDot = -1 then { st1 with startDot := (i : Int) }
          else if st1.preDotState ≠ 1 then { st1 with preDotState := 1 }
          else st1
        else if st1.startDot ≠ -1 then { st1 with preDotState := -1 }
        else st1
      extnameLoop rest st2

/-- The call `path.extname(p)` on the characters of a string. -/
def extnameChars (p : List Char) : List Char :=
  let st := extnameLoop ((List.range p.length).zip p).reverse
    { startDot := -1, startPart := 0, endIdx := -1, matchedSlash := true, preDotState := 0 }
  if st.startDot = -1 || st.endIdx = -1 || st.preDotState = 0 ||
      (st.preDotState = 1 && st.startDot = st.endIdx - 1 && st.startDot = st.startPart + 1) then
    []
  else
    (p.take st.endIdx.toNat).drop st.startDot.toNat

/-- The call `path.extname(p)`. -/
def extname (p : String) : String := String.mk (extnameChars p.toList)

/-- The call `s.slice(1)`. -/
def slice1 (s : String) : String := String.mk (s.toList.drop 1)

/-! ## `String.prototype.toUpperCase` -/

/-- The simple uppercase mappings of the Unicode Character Database (version
14.0), as runs `(lo, hi, step, to)`: the code points `lo`, `lo + step`, ...,
`hi` map, in this order, to `to`, `to + step`, ...  A code point in no run and
not in `upperSpecial` is its own uppercase. -/
def upperRuns : List (Nat × Nat × Nat × Nat) := [
  (0x61, 0x7A, 1, 0x41), (0xB5, 0xB5, 1, 0x39C), (0xE0, 0xF6, 1, 0xC0), (0xF8, 0xFE, 1, 0xD8),
  (0xFF, 0xFF, 1, 0x178), (0x101, 0x12F, 2, 0x100), (0x131, 0x131, 1, 0x49), (0x133, 0x137, 2, 0x132),
  (0x13A, 0x148, 2, 0x139), (0x14B, 0x177, 2, 0x14A), (0x17A, 0x17E, 2, 0x179), (0x17F, 0x17F, 1, 0x53),
  (0x180, 0x180, 1, 0x243), (0x183, 0x185, 2, 0x182), (0x188, 0x188, 1, 0x187), (0x18C, 0x18C, 1, 0x18B),
  (0x192, 0x192, 1, 0x191), (0x195, 0x195, 1, 0x1F6), (0x199, 0x199, 1, 0x198), (0x19A, 0x19A, 1, 0x23D),
  (0x19E, 0x19E, 1, 0x220), (0x1A1, 0x1A5, 2, 0x1A0), (0x1A8, 0x1A8, 1, 0x1A7), (0x1AD, 0x1AD, 1, 0x1AC),
  (0x1B0, 0x1B0, 1, 0x1AF), (0x1B4, 0x1B6, 2, 0x1B3), (0x1B9, 0x1B9, 1, 0x1B8), (0x1BD, 0x1BD, 1, 0x1BC),
  (0x1BF, 0x1BF, 1, 0x1F7), (0x1C5, 0x1C5, 1, 0x1C4), (0x1C6, 0x1C6, 1, 0x1C4), (0x1C8, 0x1C8, 1, 0x1C7),
  (0x1C9, 0x1C9, 1, 0x1C7), (0x1CB, 0x1CB, 1, 0x1CA), (0x1CC, 0x1CC, 1, 0x1CA), (0x1CE, 0x1DC, 2, 0x1CD),
  (0x1DD, 0x1DD, 1, 0x18E), (0x1DF, 0x1EF, 2, 0x1DE), (0x1F2, 0x1F2, 1, 0x1F1), (0x1F3, 0x1F3, 1, 0x1F1),
  (0x1F5, 0x1F5, 1, 0x1F4), (0x1F9, 0x21F, 2, 0x1F8), (0x223, 0x233, 2, 0x222), (0x23C, 0x23C, 1, 0x23B),
  (0x23F, 0x240, 1, 0x2C7E), (0x242, 0x242, 1, 0x241), (0x247, 0x24F, 2, 0x246), (0x250, 0x250, 1, 0x2C6F),
  (0x251, 0x251, 1, 0x2C6D), (0x252, 0x252, 1, 0x2C70), (0x253, 0x253, 1, 0x181), (0x254, 0x254, 1, 0x186),
  (0x256, 0x257, 1, 0x189), (0x259, 0x259, 1, 0x18F), (0x25B, 0x25B, 1, 0x190), (0x25C, 0x25C, 1, 0xA7AB),
  (0x260, 0x260, 1, 0x193), (0x261, 0x261, 1, 0xA7AC), (0x263, 0x263, 1, 0x194), (0x265, 0x265, 1, 0xA78D),
  (0x266, 0x266, 1, 0xA7AA), (0x268, 0x268, 1, 0x197), (0x269, 0x269, 1, 0x196), (0x26A, 0x26A, 1, 0xA7AE),
  (0x26B, 0x26B, 1, 0x2C62), (0x26C, 0x26C, 1, 0xA7AD), (0x26F, 0x26F, 1, 0x19C), (0x271, 0x271, 1, 0x2C6E),
  (0x272, 0x272, 1, 0x19D), (0x275, 0x275, 1, 0x19F), (0x27D, 0x27D, 1, 0x2C64), (0x280, 0x280, 1, 0x1A6),
  (0x282, 0x282, 1, 0xA7C5), (0x283, 0x283, 1, 0x1A9), (0x287, 0x287, 1, 0xA7B1), (0x288, 0x288, 1, 0x1AE),
  (0x289, 0x289, 1, 0x244), (0x28A, 0x28B, 1, 0x1B1), (0x28C, 0x28C, 1, 0x245), (0x292, 0x292, 1, 0x1B7),
  (0x29D, 0x29D, 1, 0xA7B2), (0x29E, 0x29E, 1, 0xA7B0), (0x345, 0x345, 1, 0x399), (0x371, 0x373, 2, 0x370),
  (0x377, 0x377, 1, 0x376), (0x37B, 0x37D, 1, 0x3FD), (0x3AC, 0x3AC, 1, 0x386), (0x3AD, 0x3AF, 1, 0x388),
  (0x3B1, 0x3C1, 1, 0x391), (0x3C2, 0x3C2, 1, 0x3A3), (0x3C3, 0x3CB, 1, 0x3A3), (0x3CC, 0x3CC, 1, 0x38C),
  (0x3CD, 0x3CE, 1, 0x38E), (0x3D0, 0x3D0, 1, 0x392), (0x3D1, 0x3D1, 1, 0x398), (0x3D5, 0x3D5, 1, 0x3A6),
  (0x3D6, 0x3D6, 1, 0x3A0), (0x3D7, 0x3D7, 1, 0x3CF), (0x3D9, 0x3EF, 2, 0x3D8), (0x3F0, 0x3F0, 1, 0x39A),
  (0x3F1, 0x3F1, 1, 0x3A1), (0x3F2, 0x3F2, 1, 0x3F9), (0x3F3, 0x3F3, 1, 0x37F), (0x3F5, 0x3F5, 1, 0x395),
  (0x3F8, 0x3F8, 1, 0x3F7), (0x3FB, 0x3FB, 1, 0x3FA), (0x430, 0x44F, 1, 0x410), (0x450, 0x45F, 1, 0x400),
  (0x461, 0x481, 2, 0x460), (0x48B, 0x4BF, 2, 0x48A), (0x4C2, 0x4CE, 2, 0x4C1), (0x4CF, 0x4CF, 1, 0x4C0),
  (0x4D1, 0x52F, 2, 0x4D0), (0x561, 0x586, 1, 0x531), (0x10D0, 0x10FA, 1, 0x1C90), (0x10FD, 0x10FF, 1, 0x1CBD),
  (0x13F8, 0x13FD, 1, 0x13F0), (0x1C80, 0x1C80, 1, 0x412), (0x1C81, 0x1C81, 1, 0x414), (0x1C82, 0x1C82, 1, 0x41E),
  (0x1C83, 0x1C84, 1, 0x421), (0x1C85, 0x1C85, 1, 0x422), (0x1C86, 0x1C86, 1, 0x42A), (0x1C87, 0x1C87, 1, 0x462),
  (0x1C88, 0x1C88, 1, 0xA64A), (0x1D79, 0x1D79, 1, 0xA77D), (0x1D7D, 0x1D7D, 1, 0x2C63), (0x1D8E, 0x1D8E, 1, 0xA7C6),
  (0x1E01, 0x1E95, 2, 0x1E00), (0x1E9B, 0x1E9B, 1, 0x1E60), (0x1EA1, 0x1EFF, 2, 0x1EA0), (0x1F00, 0x1F07, 1, 0x1F08),
  (0x1F10, 0x1F15, 1, 0x1F18), (0x1F20, 0x1F27, 1, 0x1F28), (0x1F30, 0x1F37, 1, 0x1F38), (0x1F40, 0x1F45, 1, 0x1F48),
  (0x1F51, 0x1F57, 2, 0x1F59), (0x1F60, 0x1F67, 1, 0x1F68), (0x1F70, 0x1F71, 1, 0x1FBA), (0x1F72, 0x1F75, 1, 0x1FC8),
  (0x1F76, 0x1F77, 1, 0x1FDA), (0x1F78, 0x1F79, 1, 0x1FF8), (0x1F7A, 0x1F7B, 1, 0x1FEA), (0x1F7C, 0x1F7D, 1, 0x1FFA),
  (0x1FB0, 0x1FB1, 1, 0x1FB8), (0x1FBE, 0x1FBE, 1, 0x399), (0x1FD0, 0x1FD1, 1, 0x1FD8), (0x1FE0, 0x1FE1, 1, 0x1FE8),
  (0x1FE5, 0x1FE5, 1, 0x1FEC), (0x214E, 0x214E, 1, 0x2132), (0x2170, 0x217F, 1, 0x2160), (0x2184, 0x2184, 1, 0x2183),
  (0x24D0, 0x24E9, 1, 0x24B6), (0x2C30, 0x2C5F, 1, 0x2C00), (0x2C61, 0x2C61, 1, 0x2C60), (0x2C65, 0x2C65, 1, 0x23A),
  (0x2C66, 0x2C66, 1, 0x23E), (0x2C68, 0x2C6C, 2, 0x2C67), (0x2C73, 0x2C73, 1, 0x2C72), (0x2C76, 0x2C76, 1, 0x2C75),
  (0x2C81, 0x2CE3, 2, 0x2C80), (0x2CEC, 0x2CEE, 2, 0x2CEB), (0x2CF3, 0x2CF3, 1, 0x2CF2), (0x2D00, 0x2D25, 1, 0x10A0),
  (0x2D27, 0x2D27, 1, 0x10C7), (0x2D2D, 0x2D2D, 1, 0x10CD), (0xA641, 0xA66D, 2, 0xA640), (0xA681, 0xA69B, 2, 0xA680),
  (0xA723, 0xA72F, 2, 0xA722), (0xA733, 0xA76F, 2, 0xA732), (0xA77A, 0xA77C, 2, 0xA779), (0xA77F, 0xA787, 2, 0xA77E),
  (0xA78C, 0xA78C, 1, 0xA78B), (0xA791, 0xA793, 2, 0xA790), (0xA794, 0xA794, 1, 0xA7C4), (0xA797, 0xA7A9, 2, 0xA796),
  (0xA7B5, 0xA7C3, 2, 0xA7B4), (0xA7C8, 0xA7CA, 2, 0xA7C7), (0xA7D1, 0xA7D1, 1, 0xA7D0), (0xA7D7, 0xA7D9, 2, 0xA7D6),
  (0xA7F6, 0xA7F6, 1, 0xA7F5), (0xAB53, 0xAB53, 1, 0xA7B3), (0xAB70, 0xABBF, 1, 0x13A0), (0xFF41, 0xFF5A, 1, 0xFF21),
  (0x10428, 0x1044F, 1, 0x10400), (0x104D8, 0x104FB, 1, 0x104B0), (0x10597, 0x105A1, 1, 0x10570), (0x105A3, 0x105B1, 1, 0x1057C),
  (0x105B3, 0x105B9, 1, 0x1058C), (0x105BB, 0x105BC, 1, 0x10594), (0x10CC0, 0x10CF2, 1, 0x10C80), (0x118C0, 0x118DF, 1, 0x118A0),
  (0x16E60, 0x16E7F, 1, 0x16E40), (0x1E922, 0x1E943, 1, 0x1E900)]

/-- The code points whose uppercase is more than one code point (the
unconditional entries of `SpecialCasing.txt`). -/
def upperSpecial : List (Nat × List Nat) := [
  (0xDF, [0x53, 0x53]), (0x149, [0x2BC, 0x4E]), (0x1F0, [0x4A, 0x30C]),
  (0x390, [0x399, 0x308, 0x301]), (0x3B0, [0x3A5, 0x308, 0x301]), (0x587, [0x535, 0x552]),
  (0x1E96, [0x48, 0x331]), (0x1E97, [0x54, 0x308]), (0x1E98, [0x57, 0x30A]),
  (0x1E99, [0x59, 0x30A]), (0x1E9A, [0x41, 0x2BE]), (0x1F50, [0x3A5, 0x313]),
  (0x1F52, [0x3A5, 0x313, 0x300]), (0x1F54, [0x3A5, 0x313, 0x301]), (0x1F56, [0x3A5, 0x313, 0x342]),
  (0x1F80, [0x1F08, 0x399]), (0x1F81, [0x1F09, 0x399]), (0x1F82, [0x1F0A, 0x399]),
  (0x1F83, [0x1F0B, 0x399]), (0x1F84, [0x1F0C, 0x399]), (0x1F85, [0x1F0D, 0x399]),
  (0x1F86, [0x1F0E, 0x399]), (0x1F87, [0x1F0F, 0x399]), (0x1F88, [0x1F08, 0x399]),
  (0x1F89, [0x1F09, 0x399]), (0x1F8A, [0x1F0A, 0x399]), (0x1F8B, [0x1F0B, 0x399]),
  (0x1F8C, [0x1F0C, 0x399]), (0x1F8D, [0x1F0D, 0x399]), (0x1F8E, [0x1F0E, 0x399]),
  (0x1F8F, [0x1F0F, 0x399]), (0x1F90, [0x1F28, 0x399]), (0x1F91, [0x1F29, 0x399]),
  (0x1F92, [0x1F2A, 0x399]), (0x1F93, [0x1F2B, 0x399]), (0x1F94, [0x1F2C, 0x399]),
  (0x1F95, [0x1F2D, 0x399]), (0x1F96, [0x1F2E, 0x399]), (0x1F97, [0x1F2F, 0x399]),
  (0x1F98, [0x1F28, 0x399]), (0x1F99, [0x1F29, 0x399]), (0x1F9A, [0x1F2A, 0x399]),
  (0x1F9B, [0x1F2B, 0x399]), (0x1F9C, [0x1F2C, 0x399]), (0x1F9D, [0x1F2D, 0x399]),
  (0x1F9E, [0x1F2E, 0x399]), (0x1F9F, [0x1F2F, 0x399]), (0x1FA0, [0x1F68, 0x399]),
  (0x1FA1, [0x1F69, 0x399]), (0x1FA2, [0x1F6A, 0x399]), (0x1FA3, [0x1F6B, 0x399]),
  (0x1FA4, [0x1F6C, 0x399]), (0x1FA5, [0x1F6D, 0x399]), (0x1FA6, [0x1F6E, 0x399]),
  (0x1FA7, [0x1F6F, 0x399]), (0x1FA8, [0x1F68, 0x399]), (0x1FA9, [0x1F69, 0x399]),
  (0x1FAA, [0x1F6A, 0x399]), (0x1FAB, [0x1F6B, 0x399]), (0x1FAC, [0x1F6C, 0x399]),
  (0x1FAD, [0x1F6D, 0x399]), (0x1FAE, [0x1F6E, 0x399]), (0x1FAF, [0x1F6F, 0x399]),
  (0x1FB2, [0x1FBA, 0x399]), (0x1FB3, [0x391, 0x399]), (0x1FB4, [0x386, 0x399]),
  (0x1FB6, [0x391, 0x342]), (0x1FB7, [0x391, 0x342, 0x399]), (0x1FBC, [0x391, 0x399]),
  (0x1FC2, [0x1FCA, 0x399]), (0x1FC3, [0x397, 0x399]), (0x1FC4, [0x389, 0x399]),
  (0x1FC6, [0x397, 0x342]), (0x1FC7, [0x397, 0x342, 0x399]), (0x1FCC, [0x397, 0x399]),
  (0x1FD2, [0x399, 0x308, 0x300]), (0x1FD3, [0x399, 0x308, 0x301]), (0x1FD6, [0x399, 0x342]),
  (0x1FD7, [0x399, 0x308, 0x342]), (0x1FE2, [0x3A5, 0x308, 0x300]), (0x1FE3, [0x3A5, 0x308, 0x301]),
  (0x1FE4, [0x3A1, 0x313]), (0x1FE6, [0x3A5, 0x342]), (0x1FE7, [0x3A5, 0x308, 0x342]),
  (0x1FF2, [0x1FFA, 0x399]), (0x1FF3, [0x3A9, 0x399]), (0x1FF4, [0x38F, 0x399]),
  (0x1FF6, [0x3A9, 0x342]), (0x1FF7, [0x3A9, 0x342, 0x399]), (0x1FFC, [0x3A9, 0x399]),
  (0xFB00, [0x46, 0x46]), (0xFB01, [0x46, 0x49]), (0xFB02, [0x46, 0x4C]),
  (0xFB03, [0x46, 0x46, 0x49]), (0xFB04, [0x46, 0x46, 0x4C]), (0xFB05, [0x53, 0x54]),
  (0xFB06, [0x53, 0x54]), (0xFB13, [0x544, 0x546]), (0xFB14, [0x544, 0x535]),
  (0xFB15, [0x544, 0x53B]), (0xFB16, [0x54E, 0x546]), (0xFB17, [0x544, 0x53D])]

/-- The uppercase of a code point, as code points. -/
def upperCodes (n : Nat) : List Nat :=
  match upperSpecial.find? (fun e => e.1 == n) with
  | some e => e.2
  | none =>
    match upperRuns.find? (fun r => decide (r.1 ≤ n) && decide (n ≤ r.2.1) &&
        (n - r.1) % r.2.2.1 == 0) with
    | some r => [r.2.2.2 + (n - r.1)]
    | none => [n]

/-- The uppercase of a character. -/
def upperChar (c : Char) : List Char := (upperCodes c.toNat).map Char.ofNat

/-- The call `s.toUpperCase()`: every code point is replaced by its full
uppercase mapping, which may be longer than one code point (`ß` gives `SS`).
A JS string with an unpaired surrogate has no counterpart here. -/
def toUpperCase (s : String) : String := String.mk (s.toList.map upperChar).flatten

/-- The expression `path.extname(filePath).slice(1).toUpperCase()`. -/
def fileTypeOf (filePath : String) : String := toUpperCase (slice1 (extname filePath))

/-- Following the spec's words ("`filePath`'s extension", "no leading
separator"): the file name is the last segment of the path, separators at the
end aside; its extension is the text after its last dot, and a name with no
dot, or whose last dot is its first character, has none. -/
def extensionOfChars (p : List Char) : List Char :=
  let name := ((p.reverse.dropWhile (fun c => decide (c = '/'))).takeWhile
    (fun c => decide (c ≠ '/'))).reverse
  let untilDot := (name.reverse.dropWhile (fun c => decide (c ≠ '.'))).reverse
  if untilDot = [] ∨ untilDot = ['.'] then []
  else (name.reverse.takeWhile (fun c => decide (c ≠ '.'))).reverse

/-- The extension of a path, without its dot. -/
def extensionOf (p : String) : String := String.mk (extensionOfChars p.toList)

/-- Following the spec's words: "the uppercased extension of its current
`filePath` with no leading separator". -/
def upperExtension (filePath : String) : String := toUpperCase (extensionOf filePath)

/-- The characters of a string with their indices, last character first,
from the reversed string. -/
def indexedRev : List Char → List (Nat × Char)
  | [] => []
  | c :: r => (r.length, c) :: indexedRev r

/-! ## The upload directory (`fs`) -/

/-- The files under the server directory: each entry is a resolved path and
whether `fs.unlinkSync` succeeds on it (it fails on a directory, or on a file
the process may not remove). -/
abbrev FileSys := List (String × Bool)

/-- An error thrown by an `fs` call. -/
inductive FsError where
  | noEntry
  | notPermitted
  deriving DecidableEq, Repr

deriving instance DecidableEq for Except

/-- The call `fs.existsSync(p)`. -/
def existsSync (fs : FileSys) (p : String) : Bool := fs.any (fun e => decide (e.1 = p))

/-- The call `fs.unlinkSync(p)`: removes the entry, or throws. -/
def unlinkSync (fs : FileSys) (p : String) : Except FsError FileSys :=
  match fs.find? (fun e => decide (e.1 = p)) with
  | none => .error .noEntry
  | some (_, true) => .ok (fs.filter (fun e => decide (e.1 ≠ p)))
  | some (_, false) => .error .notPermitted

/-- The helper `deleteFile`.  `fullPath` is `path.join(__dirname, ·)`.  The
argument is a path field of a stored record (`none` is `null`).  The result
is an `Except` so that a thrown error would show; the `catch` around
`unlinkSync` turns its error into a normal return (the `console` lines are
not modelled). -/
def deleteFile (fullPath : String → String) (fs : FileSys) (filePath : Option String) :
    Except FsError FileSys :=
  match filePath with
  | none => .ok fs
  | some p =>
    if p = "" then .ok fs
    else
      if existsSync fs (fullPath p) then
        match unlinkSync fs (fullPath p) with
        | .ok fs1 => .ok fs1
        | .error _ => .ok fs
      else .ok fs

/-! ## The record store (Prisma client) -/

/-- Modelled from the spec: the Prisma schema is not among the sources; the
fields and their types follow the data model (`id` integer assigned by the
store, `name`, `filePath`, `fileType` text, `thumbnailPath` and `size`
optional text, `createdAt` set once by the store). -/
structure Model where
  id : Int
  name : String
  filePath : String
  fileType : String
  thumbnailPath : Option String
  size : Option String
  createdAt : Nat
  deriving DecidableEq, Repr

/-- Modelled from the spec: the Prisma schema is not among the sources; the
fields follow the data model (`id` an opaque token assigned by the store,
here a counter value; `modelId` the parent reference; `data` a document). -/
structure Material where
  id : Nat
  modelId : Int
  name : String
  data : JsVal
  thumbnailPath : Option String
  createdAt : Nat
  deriving DecidableEq, Repr

/-- A call made on the Prisma client. -/
inductive StoreCall where
  | modelFindMany
  | modelFindUnique (id : Int)
  | modelCreate
  | modelUpdate (id : Int)
  | modelDelete (id : Int)
  | materialFindMany
  | materialFindManyWhere (modelId : Int)
  | materialCreate
  deriving DecidableEq, Repr

/-- An error thrown by the Prisma client: `P2025` (record to update or delete
does not exist), or any other error. -/
inductive StoreError where
  | p2025
  | other
  deriving DecidableEq, Repr

/-- The state behind the Prisma client, with the calls made so far.  Ids are
unbounded integers, and the store itself never fails (no outage). -/
structure Store where
  models : List Model
  materials : List Material
  nextModelId : Int
  nextMaterialId : Nat
  clock : Nat
  calls : List StoreCall
  deriving DecidableEq, Repr

/-- Record a call. -/
def Store.log (s : Store) (c : StoreCall) : Store := { s with calls := s.calls ++ [c] }

/-- The fresh store. -/
def Store.empty : Store :=
  { models := [], materials := [], nextModelId := 1, nextMaterialId := 1, clock := 0, calls := [] }

/-- A value accepted for a required text field. -/
def isText : JsVal → Bool
  | .str _ => true
  | _ => false

/-- A value accepted for an optional text field on create. -/
def isTextOrNull : JsVal → Bool
  | .str _ => true
  | .null => true
  | .undefined => true
  | _ => false

/-- The stored value of an optional text field. -/
def textOrNull : JsVal → Option String
  | .str s => some s
  | _ => none

/-- The stored value of a required text field. -/
def textOf : JsVal → String
  | .str s => s
  | _ => ""

/-- The call `prisma.model.findUnique({ where: { id } })`. -/
def modelFindUnique (s : Store) (id : Int) : Option Model × Store :=
  (s.models.find? (fun m => decide (m.id = id)), s.log (.modelFindUnique id))

/-- Newest first: `orderBy: { createdAt: 'desc' }`. -/
def newestFirst (a b : Nat) : Prop := b ≤ a

instance : DecidableRel newestFirst := fun a b => inferInstanceAs (Decidable (b ≤ a))

/-- The call `prisma.model.findMany({ orderBy: { createdAt: 'desc' } })`. -/
def modelFindMany (s : Store) : List Model × Store :=
  (s.models.insertionSort (fun a b => newestFirst a.createdAt b.createdAt), s.log .modelFindMany)

/-- The `data` object passed to `prisma.model.create`. -/
structure ModelCreateData where
  name : JsVal
  filePath : JsVal
  thumbnailPath : JsVal
  size : JsVal
  fileType : JsVal
  deriving DecidableEq, Repr

/-- The call `prisma.model.create({ data })`: the client rejects a `data`
whose values do not fit the field types; otherwise the record is stored with
a fresh `id` and `createdAt`. -/
def modelCreate (s : Store) (d : ModelCreateData) : Except StoreError Model × Store :=
  let s1 := s.log .modelCreate
  if isText d.name && isText d.filePath && isTextOrNull d.thumbnailPath &&
      isTextOrNull d.size && isText d.fileType then
    let m : Model :=
      { id := s.nextModelId, name := textOf d.name, filePath := textOf d.filePath,
        fileType := textOf d.fileType, thumbnailPath := textOrNull d.thumbnailPath,
        size := textOrNull d.size, createdAt := s.clock }
    (.ok m, { s1 with models := s1.models ++ [m], nextModelId := s.nextModelId + 1,
                      clock := s.clock + 1 })
  else (.error .other, s1)

/-- The object `dataToUpdate` of the update handler; a field that was never
assigned is `undefined`. -/
structure ModelUpdateData where
  name : JsVal
  thumbnailPath : JsVal
  size : JsVal
  filePath : JsVal
  fileType : JsVal
  deriving DecidableEq, Repr

/-- The value `Object.keys(dataToUpdate).length`. -/
def ModelUpdateData.keyCount (d : ModelUpdateData) : Nat :=
  (if d.name = .undefined then 0 else 1) + (if d.thumbnailPath = .undefined then 0 else 1) +
  (if d.size = .undefined then 0 else 1) + (if d.filePath = .undefined then 0 else 1) +
  (if d.fileType = .undefined then 0 else 1)

/-- A value accepted for a required text field on update. -/
def isTextOrAbsent : JsVal → Bool
  | .str _ => true
  | .undefined => true
  | _ => false

/-- A required text field after an update: kept when the key is absent. -/
def updText (old : String) : JsVal → String
  | .str s => s
  | _ => old

/-- An optional text field after an update: kept when the key is absent,
cleared by `null`. -/
def updTextOrNull (old : Option String) : JsVal → Option String
  | .str s => some s
  | .null => none
  | _ => old

/-- A record after `data` is applied to it: only the keys present change. -/
def Model.apply (m : Model) (d : ModelUpdateData) : Model :=
  { m with name := updText m.name d.name, filePath := updText m.filePath d.filePath,
           fileType := updText m.fileType d.fileType,
           thumbnailPath := updTextOrNull m.thumbnailPath d.thumbnailPath,
           size := updTextOrNull m.size d.size }

/-- The call `prisma.model.update({ where: { id }, data })`: the client first
rejects a `data` whose values do not fit the field types; then `P2025` when no
record has that id; otherwise the record is replaced. -/
def modelUpdate (s : Store) (id : Int) (d : ModelUpdateData) : Except StoreError Model × Store :=
  let s1 := s.log (.modelUpdate id)
  if isTextOrAbsent d.name && isTextOrAbsent d.filePath && isTextOrAbsent d.fileType &&
      isTextOrNull d.thumbnailPath && isTextOrNull d.size then
    match s.models.find? (fun m => decide (m.id = id)) with
    | none => (.error .p2025, s1)
    | some m =>
      (.ok (m.apply d),
       { s1 with models := s1.models.map (fun x => if x.id = id then x.apply d else x) })
  else (.error .other, s1)

/-- Modelled from the spec: the Prisma schema, which fixes what the store does
with the Materials of a deleted Model, is not among the sources; by the spec
they are left in place.  The call `prisma.model.delete({ where: { id } })`:
`P2025` when no record has that id; otherwise the record is removed. -/
def modelDelete (s : Store) (id : Int) : Except StoreError Model × Store :=
  let s1 := s.log (.modelDelete id)
  match s.models.find? (fun m => decide (m.id = id)) with
  | none => (.error .p2025, s1)
  | some m => (.ok m, { s1 with models := s1.models.filter (fun x => decide (x.id ≠ id)) })

/-- The call `prisma.material.findMany({ orderBy: { createdAt: 'desc' } })`. -/
def materialFindMany (s : Store) : List Material × Store :=
  (s.materials.insertionSort (fun a b => newestFirst a.createdAt b.createdAt),
   s.log .materialFindMany)

/-- The call `prisma.material.findMany({ where: { modelId }, orderBy })`. -/
def materialFindManyWhere (s : Store) (modelId : Int) : List Material × Store :=
  ((s.materials.filter (fun x => decide (x.modelId = modelId))).insertionSort
      (fun a b => newestFirst a.createdAt b.createdAt),
   s.log (.materialFindManyWhere modelId))

/-- The `data` object passed to `prisma.material.create`. -/
structure MaterialCreateData where
  modelId : Int
  name : JsVal
  data : JsVal
  thumbnailPath : JsVal
  deriving DecidableEq, Repr

/-- Modelled from the spec: the Prisma schema is not among the sources; by the
spec the store refuses a Material whose `modelId` is not the id of a Model.
The call `prisma.material.create({ data })`: the client rejects a `data`
whose values do not fit the field types, the store rejects an unknown
`modelId`; otherwise the record is stored with a fresh `id` and `createdAt`. -/
def materialCreate (s : Store) (d : MaterialCreateData) : Except StoreError Material × Store :=
  let s1 := s.log .materialCreate
  if isText d.name && isTextOrNull d.thumbnailPath &&
      s.models.any (fun m => decide (m.id = d.modelId)) then
    let x : Material :=
      { id := s.nextMaterialId, modelId := d.modelId, name := textOf d.name, data := d.data,
        thumbnailPath := textOrNull d.thumbnailPath, createdAt := s.clock }
    (.ok x, { s1 with materials := s1.materials ++ [x], nextMaterialId := s.nextMaterialId + 1,
                      clock := s.clock + 1 })
  else (.error .other, s1)

/-! ## The route handlers -/

/-- The body of a response. -/
inductive Payload where
  | error (message : String)
  | model (m : Model)
  | models (ms : List Model)
  | material (x : Material)
  | materials (xs : List Material)
  deriving DecidableEq, Repr

/-- What a handler does with the request: `res.status(n).json(body)`,
`res.status(n).send()`, or an exception that leaves the handler (thrown
outside its `try`), in which case no response is written. -/
inductive Reply where
  | json (status : Nat) (body : Payload)
  | send (status : Nat)
  | uncaught
  deriving DecidableEq, Repr

/-- The status code of a reply, when one is written. -/
def Reply.status : Reply → Option Nat
  | .json n _ => some n
  | .send n => some n
  | .uncaught => none

/-- The state the handlers act on: the record store and the files. -/
structure World where
  store : Store
  files : FileSys
  deriving DecidableEq, Repr

/-- The fields a Model handler destructures from `req.body`. -/
structure ModelBody where
  name : JsVal
  filePath : JsVal
  thumbnailPath : JsVal
  size : JsVal
  deriving DecidableEq, Repr

/-- The fields the Material handler destructures from `req.body`. -/
structure MaterialBody where
  model_id : JsVal
  name : JsVal
  data : JsVal
  thumbnailPath : JsVal
  deriving DecidableEq, Repr

/-- The expression `a || b`. -/
def jsOr (a b : JsVal) : JsVal := if truthy a then a else b

/-- The handler `GET /api/models`. -/
def listModels (w : World) : Reply × World :=
  let (ms, s1) := modelFindMany w.store
  (.json 200 (.models ms), { w with store := s1 })

/-- The handler `GET /api/models/:id`; `id` is `req.params.id`. -/
def getModel (w : World) (id : String) : Reply × World :=
  match parseInt id with
  | .nan => (.json 400 (.error "Invalid model ID."), w)
  | .int modelId =>
    match modelFindUnique w.store modelId with
    | (none, s1) => (.json 404 (.error "Model not found"), { w with store := s1 })
    | (some m, s1) => (.json 200 (.model m), { w with store := s1 })

/-- The handler `POST /api/models`.  Inside its `try`, `path.extname` throws on
a `filePath` that is not a string and `String(size)` may throw; the `catch`
answers 500. -/
def createModel (w : World) (body : ModelBody) : Reply × World :=
  if !truthy body.name || !truthy body.filePath then
    (.json 400 (.error "Name and filePath are required."), w)
  else
    match body.filePath with
    | .str p =>
      let fileType := fileTypeOf p
      match (if truthy body.size then (jsString body.size).map JsVal.str else some JsVal.null) with
      | none => (.json 500 (.error "Internal server error"), w)
      | some size =>
        match modelCreate w.store
            { name := body.name, filePath := body.filePath,
              thumbnailPath := jsOr body.thumbnailPath .null,
              size := size, fileType := .str fileType } with
        | (.ok newModel, s1) => (.json 201 (.model newModel), { w with store := s1 })
        | (.error _, s1) => (.json 500 (.error "Internal server error"), { w with store := s1 })
    | _ => (.json 500 (.error "Internal server error"), w)

/-- The object `dataToUpdate` built by `PUT /api/models/:id` from the body;
`none` when `String(size)` or `path.extname(filePath)` throws (both stand
outside the handler's `try`). -/
def buildUpdateData (body : ModelBody) : Option ModelUpdateData :=
  let name := if body.name ≠ .undefined then body.name else .undefined
  let thumbnailPath := if body.thumbnailPath ≠ .undefined then body.thumbnailPath else .undefined
  match (if body.size ≠ .undefined then (jsString body.size).map JsVal.str
         else some JsVal.undefined) with
  | none => none
  | some size =>
    if truthy body.filePath then
      match body.filePath with
      | .str p =>
        some { name := name, thumbnailPath := thumbnailPath, size := size,
               filePath := body.filePath, fileType := .str (fileTypeOf p) }
      | _ => none
    else
      some { name := name, thumbnailPath := thumbnailPath, size := size,
             filePath := .undefined, fileType := .undefined }

/-- The handler `PUT /api/models/:id`. -/
def updateModel (w : World) (id : String) (body : ModelBody) : Reply × World :=
  match parseInt id with
  | .nan => (.json 400 (.error "Invalid model ID."), w)
  | .int modelId =>
    match buildUpdateData body with
    | none => (.uncaught, w)
    | some dataToUpdate =>
      if dataToUpdate.keyCount = 0 then
        (.json 400 (.error "No update data provided."), w)
      else
        match modelUpdate w.store modelId dataToUpdate with
        | (.ok updatedModel, s1) => (.json 200 (.model updatedModel), { w with store := s1 })
        | (.error .p2025, s1) => (.json 404 (.error "Model not found"), { w with store := s1 })
        | (.error .other, s1) =>
          (.json 500 (.error "Internal server error"), { w with store := s1 })

/-- The handler `DELETE /api/models/:id`.  `fullPath` is
`path.join(__dirname, ·)`. -/
def deleteModel (fullPath : String → String) (w : World) (id : String) : Reply × World :=
  match parseInt id with
  | .nan => (.json 400 (.error "Invalid model ID."), w)
  | .int modelId =>
    match modelFindUnique w.store modelId with
    | (model, s1) =>
      let cleaned : Except FsError FileSys :=
        match model with
        | some m =>
          match deleteFile fullPath w.files (some m.filePath) with
          | .ok f1 => deleteFile fullPath f1 m.thumbnailPath
          | .error e => .error e
        | none => .ok w.files
      match cleaned with
      | .error _ =>
        (.json 500 (.error "Internal server error"), { w with store := s1 })
      | .ok f2 =>
        match modelDelete s1 modelId with
        | (.ok _, s2) => (.send 204, { store := s2, files := f2 })
        | (.error .p2025, s2) =>
          (.json 404 (.error "Model not found"), { store := s2, files := f2 })
        | (.error .other, s2) =>
          (.json 500 (.error "Internal server error"), { store := s2, files := f2 })

/-- The handler `GET /api/materials`. -/
def listMaterials (w : World) : Reply × World :=
  let (xs, s1) := materialFindMany w.store
  (.json 200 (.materials xs), { w with store := s1 })

/-- The handler `GET /api/models/:model_id/materials`. -/
def listMaterialsByModel (w : World) (model_id : String) : Reply × World :=
  match parseInt model_id with
  | .nan => (.json 400 (.error "Invalid model ID."), w)
  | .int modelId =>
    let (xs, s1) := materialFindManyWhere w.store modelId
    (.json 200 (.materials xs), { w with store := s1 })

/-- The handler `POST /api/materials`.  `parseInt(model_id, 10)` stands outside
the `try`. -/
def createMaterial (w : World) (body : MaterialBody) : Reply × World :=
  match parseIntVal body.model_id with
  | none => (.uncaught, w)
  | some modelId =>
    if !modelId.truthy || !truthy body.name then
      (.json 400 (.error "model_id and name are required."), w)
    else
      match modelId with
      | .nan => (.json 400 (.error "Invalid model_id."), w)
      | .int n =>
        match materialCreate w.store
            { modelId := n, name := body.name, data := jsOr body.data (.obj (some "[object Object]")),
              thumbnailPath := jsOr body.thumbnailPath .null } with
        | (.ok newMaterial, s1) => (.json 201 (.material newMaterial), { w with store := s1 })
        | (.error _, s1) => (.json 500 (.error "Failed to add material."), { w with store := s1 })

/-! ## Requests and reachable states -/

/-- A request to one of the routes above. -/
inductive Request where
  | listModels
  | getModel (id : String)
  | createModel (body : ModelBody)
  | updateModel (id : String) (body : ModelBody)
  | deleteModel (id : String)
  | listMaterials
  | listMaterialsByModel (model_id : String)
  | createMaterial (body : MaterialBody)
  deriving DecidableEq, Repr

/-- Dispatch of a request to its handler. -/
def handle (fullPath : String → String) (w : World) : Request → Reply × World
  | .listModels => listModels w
  | .getModel id => getModel w id
  | .createModel body => createModel w body
  | .updateModel id body => updateModel w id body
  | .deleteModel id => deleteModel fullPath w id
  | .listMaterials => listMaterials w
  | .listMaterialsByModel model_id => listMaterialsByModel w model_id
  | .createMaterial body => createMaterial w body

/-- The states the server can be in: it starts on a fresh store with any
files, serves requests one after another, and files may appear or disappear
in between (uploads, the operator). -/
inductive Reachable (fullPath : String → String) : World → Prop where
  | init (files : FileSys) : Reachable fullPath { store := Store.empty, files := files }
  | step (w : World) (r : Request) : Reachable fullPath w → Reachable fullPath (handle fullPath w r).2
  | files (w : World) (files : FileSys) : Reachable fullPath w →
      Reachable fullPath { w with files := files }

/-- Every stored Model has the file type of its file path. -/
def FileTypeConsistent (s : Store) : Prop :=
  ∀ m ∈ s.models, m.fileType = fileTypeOf m.filePath

/-- The expression giving the `size` key of `dataToUpdate`. -/
def sizeKey (size : JsVal) : Option JsVal :=
  if size ≠ .undefined then (jsString size).map JsVal.str else some JsVal.undefined

/-- The values the client accepts in `dataToUpdate`. -/
def ModelUpdateData.accepted (d : ModelUpdateData) : Bool :=
  isTextOrAbsent d.name && isTextOrAbsent d.filePath && isTextOrAbsent d.fileType &&
    isTextOrNull d.thumbnailPath && isTextOrNull d.size

/-! ## Concrete inputs -/

/-- The segments of a path between its separators. -/
def segments : List Char → List (List Char)
  | [] => [[]]
  | c :: cs =>
    if c = '/' then [] :: segments cs
    else
      match segments cs with
      | [] => [[c]]
      | s :: ss => (c :: s) :: ss

/-- The helper `normalizeString` of `path`, on segments: empty segments and
`.` are dropped, `..` removes the segment before it; with nothing to remove
it is kept when `allowAboveRoot` and dropped otherwise.  `acc` holds the
segments kept so far, last one first. -/
def normalizeSegments (allowAboveRoot : Bool) :
    List (List Char) → List (List Char) → List (List Char)
  | acc, [] => acc.reverse
  | acc, s :: rest =>
    if s = [] ∨ s = ['.'] then normalizeSegments allowAboveRoot acc rest
    else if s = ['.', '.'] then
      match acc with
      | t :: acc1 =>
        if t ≠ ['.', '.'] then normalizeSegments allowAboveRoot acc1 rest
        else if allowAboveRoot then normalizeSegments allowAboveRoot (s :: acc) rest
        else normalizeSegments allowAboveRoot acc rest
      | [] =>
        if allowAboveRoot then normalizeSegments allowAboveRoot (s :: acc) rest
        else normalizeSegments allowAboveRoot acc rest
    else normalizeSegments allowAboveRoot (s :: acc) rest

/-- The call `path.normalize(p)` (POSIX) on the characters of a string. -/
def normalizeChars (path : List Char) : List Char :=
  if path = [] then ['.']
  else
    let isAbsolute := path.head? = some '/'
    let trailingSeparator := path.getLast? = some '/'
    let body := ['/'].intercalate (normalizeSegments (!isAbsolute) [] (segments path))
    if body = [] then
      if isAbsolute then ['/'] else if trailingSeparator then ['.', '/'] else ['.']
    else
      (if isAbsolute then '/' :: body else body) ++ (if trailingSeparator then ['/'] else [])

/-- The call `path.join(a, b)` (POSIX): the non-empty arguments are joined
with a separator and the result is normalised. -/
def pathJoin (a b : String) : String :=
  let parts := [a.toList, b.toList].filter (fun x => decide (x ≠ []))
  if parts = [] then "." else String.mk (normalizeChars (['/'].intercalate parts))

/-- The join `path.join(__dirname, ·)` of a server installed in
`/app/backend`. -/
def appDir (p : String) : String := pathJoin "/app/backend" p

/-- The fresh server: no records, no files. -/
def freshWorld : World := { store := Store.empty, files := [] }

/-- The body `{ name: "Chair", filePath: "uploads/1.obj" }` of the spec's
end-to-end example. -/
def chair : ModelBody :=
  { name := .str "Chair", filePath := .str "uploads/1.obj", thumbnailPath := .undefined,
    size := .undefined }

/-- The record the store holds after `chair` is posted to the fresh server. -/
def chairRecord : Model :=
  { id := 1, name := "Chair", filePath := "uploads/1.obj", fileType := "OBJ",
    thumbnailPath := none, size := none, createdAt := 0 }

/-- The state after `chair` is posted to the fresh server. -/
def chairWorld : World := (createModel freshWorld chair).2

/-- A body with every field: name, file, thumbnail and size. -/
def stool : ModelBody :=
  { name := .str "Stool", filePath := .str "uploads/2.glb",
    thumbnailPath := .str "uploads/2.png", size := .num 2048 }

/-- The record the store holds after `stool` is posted to the fresh server. -/
def stoolRecord : Model :=
  { id := 1, name := "Stool", filePath := "uploads/2.glb", fileType := "GLB",
    thumbnailPath := some "uploads/2.png", size := some "2048", createdAt := 0 }

/-- The state after `stool` is posted to a fresh store with the given files. -/
def stoolWorld (files : FileSys) : World :=
  (createModel { store := Store.empty, files := files } stool).2

/-- A patch that supplies only `filePath`. -/
def onlyFilePath (p : String) : ModelBody :=
  { name := .undefined, filePath := .str p, thumbnailPath := .undefined, size := .undefined }

/-- The two files of `stool` under `appDir`; removing the model file is
refused, removing the thumbnail is not. -/
def refusedFiles : FileSys :=
  [("/app/backend/uploads/2.glb", false), ("/app/backend/uploads/2.png", true)]

/-- The two files of `stool` under `appDir`, both removable. -/
def removableFiles : FileSys :=
  [("/app/backend/uploads/2.glb", true), ("/app/backend/uploads/2.png", true)]

/-- The body `{ model_id, name: "Wood" }` of the spec's end-to-end example. -/
def wood (model_id : JsVal) : MaterialBody :=
  { model_id := model_id, name := .str "Wood", data := .undefined, thumbnailPath := .undefined }

/-- The record the store holds after `wood` is posted for Model 1, following
`chair`. -/
def woodRecord : Material :=
  { id := 1, modelId := 1, name := "Wood", data := .obj (some "[object Object]"),
    thumbnailPath := none, createdAt := 1 }

/-- A patch that supplies only `size`. -/
def onlySize (size : JsVal) : ModelBody :=
  { name := .undefined, filePath := .undefined, thumbnailPath := .undefined, size := size }

/-- A patch that supplies only `name`. -/
def onlyName (name : JsVal) : ModelBody :=
  { name := name, filePath := .undefined, thumbnailPath := .undefined, size := .undefined }

/-! ## Helper lemmas -/

theorem log_models (s : Store) (c : StoreCall) : (s.log c).models = s.models := rfl

theorem log_materials (s : Store) (c : StoreCall) : (s.log c).materials = s.materials := rfl

theorem ite_undefined (v : JsVal) : (if v ≠ .undefined then v else .undefined) = v := by
  by_cases h : v = .undefined <;> simp [h]

theorem buildUpdateData_spec (body : ModelBody) (d : ModelUpdateData)
    (h : buildUpdateData body = some d) :
    d.name = body.name ∧ d.thumbnailPath = body.thumbnailPath ∧
    sizeKey body.size = some d.size ∧
    ((truthy body.filePath = true ∧
        ∃ p, body.filePath = .str p ∧ d.filePath = .str p ∧ d.fileType = .str (fileTypeOf p)) ∨
     (truthy body.filePath = false ∧ d.filePath = .undefined ∧ d.fileType = .undefined)) := by
  obtain ⟨nm, fp, th, size⟩ := body
  simp only [buildUpdateData, ite_undefined] at h
  change (match sizeKey size with
    | none => none
    | some size => _) = some d at h
  cases hs : sizeKey size with
  | none => rw [hs] at h; exact absurd h (by simp)
  | some sz =>
    rw [hs] at h
    cases fp with
    | str p =>
      by_cases htr : truthy (.str p) = true
      · simp [htr] at h
        subst h
        exact ⟨rfl, rfl, rfl, Or.inl ⟨htr, p, rfl, rfl, rfl⟩⟩
      · simp [htr] at h
        subst h
        exact ⟨rfl, rfl, rfl, Or.inr ⟨by simpa using htr, rfl, rfl⟩⟩
    | undefined => simp [truthy] at h; subst h; simp [truthy]
    | null => simp [truthy] at h; subst h; simp [truthy]
    | bool b =>
      cases b
      · simp [truthy] at h; subst h; simp [truthy]
      · simp [truthy] at h
    | num n =>
      by_cases hn : n = 0
      · simp [truthy, hn] at h; subst h; simp [truthy, hn]
      · simp [truthy, hn] at h
    | float t => simp [truthy] at h
    | obj t => simp [truthy] at h

theorem buildUpdateData_fileType (body : ModelBody) (d : ModelUpdateData)
    (h : buildUpdateData body = some d) :
    (d.filePath = .undefined ∧ d.fileType = .undefined) ∨
    (∃ p, p ≠ "" ∧ body.filePath = .str p ∧ d.filePath = .str p ∧
      d.fileType = .str (fileTypeOf p)) := by
  obtain ⟨_, _, _, h4⟩ := buildUpdateData_spec body d h
  rcases h4 with ⟨htr, p, hp, h1, h2⟩ | ⟨_, h1, h2⟩
  · right
    refine ⟨p, ?_, hp, h1, h2⟩
    intro hp0
    rw [hp, hp0] at htr
    simp [truthy] at htr
  · exact Or.inl ⟨h1, h2⟩

theorem apply_consistent (m : Model) (body : ModelBody) (d : ModelUpdateData)
    (h : buildUpdateData body = some d) (hm : m.fileType = fileTypeOf m.filePath) :
    (m.apply d).fileType = fileTypeOf (m.apply d).filePath := by
  rcases buildUpdateData_fileType body d h with ⟨h1, h2⟩ | ⟨p, _, _, h1, h2⟩
  · simp [Model.apply, h1, h2, updText, hm]
  · simp [Model.apply, h1, h2, updText]

theorem createModel_created (w : World) (body : ModelBody) (m : Model) (w1 : World)
    (h : createModel w body = (.json 201 (.model m), w1)) :
    ∃ p, p ≠ "" ∧ body.filePath = .str p ∧ m.filePath = p ∧ m.fileType = fileTypeOf p ∧
      w1.store.models = w.store.models ++ [m] ∧ w1.files = w.files := by
  obtain ⟨nm, fp, th, size⟩ := body
  unfold createModel at h
  split at h
  · simp at h
  · rename_i hreq
    cases fp with
    | str p =>
      simp only at h
      split at h
      · simp at h
      · unfold modelCreate at h
        split at h
        · rename_i heq
          split at heq
          · simp only [Prod.mk.injEq, Except.ok.injEq] at heq
            obtain ⟨h1, h2⟩ := heq
            subst h1 h2
            simp only [Prod.mk.injEq, Reply.json.injEq, Payload.model.injEq, true_and] at h
            obtain ⟨h1, h2⟩ := h
            subst h1 h2
            refine ⟨p, ?_, rfl, rfl, rfl, rfl, rfl⟩
            intro hp
            simp [truthy, hp] at hreq
          · simp at heq
        · simp at h
    | _ => simp at h

theorem createModel_consistent (w : World) (body : ModelBody)
    (hw : FileTypeConsistent w.store) : FileTypeConsistent (createModel w body).2.store := by
  rcases hr : createModel w body with ⟨r, w1⟩
  by_cases hc : ∃ m, r = .json 201 (.model m)
  · obtain ⟨m, rfl⟩ := hc
    obtain ⟨p, _, _, h1, h2, h3, _⟩ := createModel_created w body m w1 hr
    intro x hx
    simp only [h3, List.mem_append, List.mem_singleton] at hx
    rcases hx with hx | rfl
    · exact hw x hx
    · rw [h2, h1]
  · have hm : w1.store.models = w.store.models := by
      obtain ⟨nm, fp, th, size⟩ := body
      unfold createModel at hr
      split at hr
      · cases hr; rfl
      · cases fp with
        | str p =>
          simp only at hr
          split at hr
          · cases hr; rfl
          · unfold modelCreate at hr
            split at hr
            · exact absurd ⟨_, (Prod.mk.inj hr).1.symm⟩ hc
            · rename_i heq
              split at heq
              · simp at heq
              · cases hr
                simp only [Prod.mk.injEq] at heq
                rw [← heq.2]
                rfl
        | _ => cases hr; rfl
    intro x hx
    rw [hm] at hx
    exact hw x hx

theorem modelUpdate_ok (s : Store) (id : Int) (d : ModelUpdateData) (m : Model)
    (hd : d.accepted = true) (hm : s.models.find? (fun m => decide (m.id = id)) = some m) :
    modelUpdate s id d =
      (.ok (m.apply d),
       { s.log (.modelUpdate id) with
         models := s.models.map (fun x => if x.id = id then x.apply d else x) }) := by
  unfold ModelUpdateData.accepted at hd
  unfold modelUpdate
  simp only [hd, hm, if_true]
  rfl

theorem modelUpdate_cases (s : Store) (id : Int) (d : ModelUpdateData) :
    (∃ e, modelUpdate s id d = (.error e, s.log (.modelUpdate id))) ∨
    (∃ m, d.accepted = true ∧ s.models.find? (fun m => decide (m.id = id)) = some m ∧
      modelUpdate s id d =
        (.ok (m.apply d),
         { s.log (.modelUpdate id) with
           models := s.models.map (fun x => if x.id = id then x.apply d else x) })) := by
  by_cases hd : d.accepted = true
  · cases hm : s.models.find? (fun m => decide (m.id = id)) with
    | none =>
      left
      unfold ModelUpdateData.accepted at hd
      unfold modelUpdate
      simp only [hd, hm, if_true]
      exact ⟨_, rfl⟩
    | some m => exact Or.inr ⟨m, hd, rfl, modelUpdate_ok s id d m hd hm⟩
  · left
    unfold ModelUpdateData.accepted at hd
    unfold modelUpdate
    simp only [hd]
    exact ⟨_, rfl⟩

/-- What `PUT /api/models/:id` does: either it leaves records and files as
they are and does not answer 200, or it answers 200 with the patched record
and stores it. -/
theorem updateModel_cases (w : World) (id : String) (body : ModelBody) :
    ((updateModel w id body).2.store.models = w.store.models ∧
      (updateModel w id body).2.files = w.files ∧
      (updateModel w id body).1.status ≠ some 200) ∨
    (∃ n d m, parseInt id = .int n ∧ buildUpdateData body = some d ∧ d.keyCount ≠ 0 ∧
      d.accepted = true ∧ w.store.models.find? (fun m => decide (m.id = n)) = some m ∧
      (updateModel w id body).1 = .json 200 (.model (m.apply d)) ∧
      (updateModel w id body).2.store.models =
        w.store.models.map (fun x => if x.id = n then x.apply d else x) ∧
      (updateModel w id body).2.files = w.files) := by
  unfold updateModel
  cases hp : parseInt id with
  | nan => left; simp [Reply.status]
  | int n =>
    cases hb : buildUpdateData body with
    | none => left; simp [Reply.status]
    | some d =>
      by_cases hk : d.keyCount = 0
      · left; simp [hk, Reply.status]
      · simp only [hk, if_false]
        rcases modelUpdate_cases w.store n d with ⟨e, h⟩ | ⟨m, hd, hm, h⟩
        · left
          rw [h]
          cases e <;> simp [Reply.status, log_models]
        · right
          refine ⟨n, d, m, rfl, rfl, hk, hd, hm, ?_, ?_, ?_⟩ <;> rw [h]

theorem find_filter_ne (fs : FileSys) (p q : String) (h : q ≠ p) :
    (fs.filter (fun e => decide (e.1 ≠ p))).find? (fun e => decide (e.1 = q)) =
      fs.find? (fun e => decide (e.1 = q)) := by
  induction fs with
  | nil => rfl
  | cons e rest ih =>
    simp only [List.filter_cons]
    by_cases h1 : e.1 = p
    · have h2 : ¬ e.1 = q := fun h3 => h (h3.symm.trans h1)
      have d1 : decide (e.1 ≠ p) = false := by simp [h1]
      have d2 : decide (e.1 = q) = false := by simp [h2]
      rw [d1]
      simp only [Bool.false_eq_true, if_false, List.find?_cons, d2]
      exact ih
    · have d1 : decide (e.1 ≠ p) = true := by simp [h1]
      rw [d1]
      simp only [if_true, List.find?_cons]
      cases decide (e.1 = q)
      · exact ih
      · rfl

theorem find_filter_self (fs : FileSys) (p : String) :
    (fs.filter (fun e => decide (e.1 ≠ p))).find? (fun e => decide (e.1 = p)) = none := by
  induction fs with
  | nil => rfl
  | cons e rest ih =>
    simp only [List.filter_cons]
    by_cases h1 : e.1 = p
    · have d1 : decide (e.1 ≠ p) = false := by simp [h1]
      rw [d1]
      simp only [Bool.false_eq_true, if_false]
      exact ih
    · have d1 : decide (e.1 ≠ p) = true := by simp [h1]
      have d2 : decide (e.1 = p) = false := by simp [h1]
      rw [d1]
      simp only [if_true, List.find?_cons, d2]
      exact ih

theorem existsSync_eq_find (fs : FileSys) (q : String) :
    existsSync fs q = (fs.find? (fun e => decide (e.1 = q))).isSome := by
  unfold existsSync
  induction fs with
  | nil => rfl
  | cons e rest ih =>
    simp only [List.any_cons, List.find?_cons]
    cases decide (e.1 = q)
    · simpa using ih
    · rfl

theorem unlinkSync_none (fs : FileSys) (q : String)
    (h : fs.find? (fun e => decide (e.1 = q)) = none) : unlinkSync fs q = .error .noEntry := by
  unfold unlinkSync; rw [h]

theorem unlinkSync_true (fs : FileSys) (q a : String)
    (h : fs.find? (fun e => decide (e.1 = q)) = some (a, true)) :
    unlinkSync fs q = .ok (fs.filter (fun e => decide (e.1 ≠ q))) := by
  unfold unlinkSync; rw [h]

theorem unlinkSync_false (fs : FileSys) (q a : String)
    (h : fs.find? (fun e => decide (e.1 = q)) = some (a, false)) :
    unlinkSync fs q = .error .notPermitted := by
  unfold unlinkSync; rw [h]

/-- The three ways `deleteFile` ends, none of them a throw: nothing to remove
(no path, or no such file), removal refused and swallowed, file removed. -/
theorem deleteFile_cases (fullPath : String → String) (fs : FileSys) (ref : Option String) :
    (deleteFile fullPath fs ref = .ok fs ∧
      (ref = none ∨ ref = some "" ∨
        ∃ p, ref = some p ∧ (existsSync fs (fullPath p) = false ∨
          unlinkSync fs (fullPath p) = .error .notPermitted))) ∨
    (∃ p, ref = some p ∧ p ≠ "" ∧ existsSync fs (fullPath p) = true ∧
      unlinkSync fs (fullPath p) = .ok (fs.filter (fun e => decide (e.1 ≠ fullPath p))) ∧
      deleteFile fullPath fs ref = .ok (fs.filter (fun e => decide (e.1 ≠ fullPath p)))) := by
  unfold deleteFile
  cases ref with
  | none => exact Or.inl ⟨rfl, Or.inl rfl⟩
  | some p =>
    by_cases hp : p = ""
    · subst hp
      exact Or.inl ⟨by simp, Or.inr (Or.inl rfl)⟩
    · simp only [hp, if_false]
      by_cases he : existsSync fs (fullPath p) = true
      · simp only [he, if_true]
        cases hf : fs.find? (fun e => decide (e.1 = fullPath p)) with
        | none =>
          rw [existsSync_eq_find, hf] at he
          simp at he
        | some e =>
          obtain ⟨a, b⟩ := e
          cases b
          · have hu := unlinkSync_false fs _ a hf
            rw [hu]
            exact Or.inl ⟨rfl, Or.inr (Or.inr ⟨p, rfl, Or.inr hu⟩)⟩
          · have hu := unlinkSync_true fs _ a hf
            rw [hu]
            exact Or.inr ⟨p, rfl, hp, he, hu, rfl⟩
      · simp only [he]
        exact Or.inl ⟨by simp, Or.inr (Or.inr ⟨p, rfl, Or.inl (by simpa using he)⟩)⟩

theorem deleteFile_absent (fullPath : String → String) (fs fs1 : FileSys) (p : String)
    (hp : p ≠ "") (hu : unlinkSync fs (fullPath p) ≠ .error .notPermitted)
    (h : deleteFile fullPath fs (some p) = .ok fs1) : existsSync fs1 (fullPath p) = false := by
  rcases deleteFile_cases fullPath fs (some p) with ⟨h1, h2⟩ | ⟨q, hq, _, _, _, h1⟩
  · rw [h1] at h
    cases h
    rcases h2 with h2 | h2 | ⟨q, hq, h2 | h2⟩
    · cases h2
    · cases h2; exact absurd rfl hp
    · cases hq; exact h2
    · cases hq; exact absurd h2 hu
  · cases hq
    rw [h1] at h
    cases h
    rw [existsSync_eq_find, find_filter_self]
    rfl

theorem deleteFile_keeps_absent (fullPath : String → String) (fs fs1 : FileSys)
    (ref : Option String) (q : String) (h : deleteFile fullPath fs ref = .ok fs1)
    (hq : existsSync fs q = false) : existsSync fs1 q = false := by
  rcases deleteFile_cases fullPath fs ref with ⟨h1, _⟩ | ⟨p, _, _, _, _, h1⟩
  · rw [h1] at h; cases h; exact hq
  · rw [h1] at h
    cases h
    unfold existsSync at hq ⊢
    rw [List.any_eq_false] at hq ⊢
    intro e he
    exact hq e (List.mem_filter.mp he).1

theorem deleteFile_keeps_removable (fullPath : String → String) (fs fs1 : FileSys)
    (ref : Option String) (q : String) (h : deleteFile fullPath fs ref = .ok fs1)
    (hq : unlinkSync fs q ≠ .error .notPermitted) :
    unlinkSync fs1 q ≠ .error .notPermitted := by
  rcases deleteFile_cases fullPath fs ref with ⟨h1, _⟩ | ⟨p, _, _, _, _, h1⟩
  · rw [h1] at h; cases h; exact hq
  · rw [h1] at h
    cases h
    by_cases hqp : q = fullPath p
    · rw [hqp, unlinkSync_none _ _ (find_filter_self fs (fullPath p))]
      simp
    · cases hf : fs.find? (fun e => decide (e.1 = q)) with
      | none =>
        rw [unlinkSync_none _ _ ((find_filter_ne fs (fullPath p) q hqp).trans hf)]
        simp
      | some e =>
        obtain ⟨a, b⟩ := e
        cases b
        · exact absurd (unlinkSync_false fs q a hf) hq
        · rw [unlinkSync_true _ _ a ((find_filter_ne fs (fullPath p) q hqp).trans hf)]
          simp

theorem deleteFile_ok (fullPath : String → String) (fs : FileSys) (ref : Option String) :
    ∃ fs1, deleteFile fullPath fs ref = .ok fs1 := by
  rcases deleteFile_cases fullPath fs ref with ⟨h, _⟩ | ⟨p, _, _, _, _, h⟩
  · exact ⟨_, h⟩
  · exact ⟨_, h⟩

theorem deleteModel_nan (fullPath : String → String) (w : World) (id : String)
    (hp : parseInt id = .nan) :
    deleteModel fullPath w id = (.json 400 (.error "Invalid model ID."), w) := by
  unfold deleteModel
  rw [hp]

theorem deleteModel_absent (fullPath : String → String) (w : World) (id : String) (n : Int)
    (hp : parseInt id = .int n)
    (hm : w.store.models.find? (fun m => decide (m.id = n)) = none) :
    deleteModel fullPath w id =
      (.json 404 (.error "Model not found"),
       { store := (w.store.log (.modelFindUnique n)).log (.modelDelete n), files := w.files }) := by
  unfold deleteModel
  rw [hp]
  simp only [modelFindUnique, hm, modelDelete, log_models]

theorem deleteModel_present (fullPath : String → String) (w : World) (id : String) (n : Int)
    (m : Model) (hp : parseInt id = .int n)
    (hm : w.store.models.find? (fun m => decide (m.id = n)) = some m) :
    ∃ f1 f2, deleteFile fullPath w.files (some m.filePath) = .ok f1 ∧
      deleteFile fullPath f1 m.thumbnailPath = .ok f2 ∧
      deleteModel fullPath w id =
        (.send 204,
         { store :=
             { (w.store.log (.modelFindUnique n)).log (.modelDelete n) with
               models := w.store.models.filter (fun x => decide (x.id ≠ n)) },
           files := f2 }) := by
  obtain ⟨f1, h1⟩ := deleteFile_ok fullPath w.files (some m.filePath)
  obtain ⟨f2, h2⟩ := deleteFile_ok fullPath f1 m.thumbnailPath
  refine ⟨f1, f2, h1, h2, ?_⟩
  unfold deleteModel
  rw [hp]
  simp only [modelFindUnique, hm, modelDelete, log_models, h1, h2]

theorem find_filter_id (ms : List Model) (n : Int) :
    (ms.filter (fun x => decide (x.id ≠ n))).find? (fun m => decide (m.id = n)) = none := by
  induction ms with
  | nil => rfl
  | cons e rest ih =>
    simp only [List.filter_cons]
    by_cases h1 : e.id = n
    · have d1 : decide (e.id ≠ n) = false := by simp [h1]
      rw [d1]
      simp only [Bool.false_eq_true, if_false]
      exact ih
    · have d1 : decide (e.id ≠ n) = true := by simp [h1]
      have d2 : decide (e.id = n) = false := by simp [h1]
      rw [d1]
      simp only [if_true, List.find?_cons, d2]
      exact ih

theorem deleteModel_models_subset (fullPath : String → String) (w : World) (id : String) :
    ∀ x ∈ (deleteModel fullPath w id).2.store.models, x ∈ w.store.models := by
  intro x hx
  cases hp : parseInt id with
  | nan => rw [deleteModel_nan fullPath w id hp] at hx; exact hx
  | int n =>
    cases hm : w.store.models.find? (fun m => decide (m.id = n)) with
    | none => rw [deleteModel_absent fullPath w id n hp hm] at hx; exact hx
    | some m =>
      obtain ⟨f1, f2, _, _, h⟩ := deleteModel_present fullPath w id n m hp hm
      rw [h] at hx
      exact (List.mem_filter.mp hx).1

theorem deleteModel_materials (fullPath : String → String) (w : World) (id : String) :
    (deleteModel fullPath w id).2.store.materials = w.store.materials := by
  cases hp : parseInt id with
  | nan => rw [deleteModel_nan fullPath w id hp]
  | int n =>
    cases hm : w.store.models.find? (fun m => decide (m.id = n)) with
    | none => rw [deleteModel_absent fullPath w id n hp hm]; rfl
    | some m =>
      obtain ⟨f1, f2, _, _, h⟩ := deleteModel_present fullPath w id n m hp hm
      rw [h]
      rfl

theorem updateModel_consistent (w : World) (id : String) (body : ModelBody)
    (hw : FileTypeConsistent w.store) : FileTypeConsistent (updateModel w id body).2.store := by
  rcases updateModel_cases w id body with ⟨h, _, _⟩ | ⟨n, d, m, _, hb, _, _, _, _, h, _⟩
  · intro x hx
    rw [h] at hx
    exact hw x hx
  · intro x hx
    rw [h] at hx
    obtain ⟨y, hy, rfl⟩ := List.mem_map.mp hx
    by_cases hid : y.id = n
    · simp only [hid, if_true]
      exact apply_consistent y body d hb (hw y hy)
    · simp only [hid, if_false]
      exact hw y hy

theorem createMaterial_models (w : World) (body : MaterialBody) :
    (createMaterial w body).2.store.models = w.store.models := by
  unfold createMaterial
  split
  · rfl
  · split
    · rfl
    · split
      · rfl
      · unfold materialCreate
        split
        · rename_i heq
          split at heq
          · cases heq; rfl
          · cases heq
        · rename_i heq
          split at heq
          · cases heq
          · cases heq; rfl

theorem handle_consistent (fullPath : String → String) (w : World) (r : Request)
    (hw : FileTypeConsistent w.store) : FileTypeConsistent (handle fullPath w r).2.store := by
  cases r with
  | listModels => exact hw
  | getModel id =>
    have h : (getModel w id).2.store.models = w.store.models := by
      unfold getModel
      split
      · rfl
      · unfold modelFindUnique
        cases w.store.models.find? _ <;> rfl
    intro x hx
    exact hw x (h ▸ hx)
  | createModel body => exact createModel_consistent w body hw
  | updateModel id body => exact updateModel_consistent w id body hw
  | deleteModel id =>
    intro x hx
    exact hw x (deleteModel_models_subset fullPath w id x hx)
  | listMaterials => exact hw
  | listMaterialsByModel model_id =>
    have h : (listMaterialsByModel w model_id).2.store.models = w.store.models := by
      unfold listMaterialsByModel
      split <;> rfl
    intro x hx
    exact hw x (h ▸ hx)
  | createMaterial body =>
    intro x hx
    exact hw x (createMaterial_models w body ▸ hx)

theorem reachable_consistent (fullPath : String → String) (w : World)
    (h : Reachable fullPath w) : FileTypeConsistent w.store := by
  induction h with
  | init files => intro m hm; cases hm
  | step w r _ ih => exact handle_consistent fullPath w r ih
  | files w files _ ih => exact ih

theorem find_map_apply (ms : List Model) (n : Int) (d : ModelUpdateData) :
    (ms.map (fun x => if x.id = n then x.apply d else x)).find? (fun m => decide (m.id = n)) =
      (ms.find? (fun m => decide (m.id = n))).map (fun x => x.apply d) := by
  induction ms with
  | nil => rfl
  | cons e rest ih =>
    simp only [List.map_cons, List.find?_cons]
    by_cases h : e.id = n
    · have h2 : (e.apply d).id = n := h
      simp only [h, if_true, h2, decide_True, Option.map_some']
    · simp only [h, if_false, decide_False]
      exact ih

theorem buildUpdateData_truthy (body : ModelBody) (p : String) (sz : JsVal)
    (hf : body.filePath = .str p) (hp : p ≠ "") (hs : sizeKey body.size = some sz) :
    buildUpdateData body =
      some { name := body.name, thumbnailPath := body.thumbnailPath, size := sz,
             filePath := .str p, fileType := .str (fileTypeOf p) } := by
  obtain ⟨nm, fp, th, size⟩ := body
  simp only at hf hs
  subst hf
  have htr : truthy (.str p) = true := by simp [truthy, hp]
  simp only [buildUpdateData, ite_undefined]
  change (match sizeKey size with
    | none => none
    | some size => _) = _
  rw [hs]
  simp [htr]

theorem buildUpdateData_falsy (body : ModelBody) (hf : truthy body.filePath = false) :
    buildUpdateData body =
      (sizeKey body.size).map (fun sz =>
        { name := body.name, thumbnailPath := body.thumbnailPath, size := sz,
          filePath := .undefined, fileType := .undefined }) := by
  obtain ⟨nm, fp, th, size⟩ := body
  simp only at hf
  simp only [buildUpdateData, ite_undefined]
  change (match sizeKey size with
    | none => none
    | some size => _) = _
  cases sizeKey size with
  | none => rfl
  | some sz => simp [hf]

theorem sizeKey_accepted (size sz : JsVal) (h : sizeKey size = some sz) :
    isTextOrNull sz = true := by
  unfold sizeKey at h
  by_cases hu : size = .undefined
  · simp [hu] at h
    subst h
    rfl
  · simp [hu] at h
    obtain ⟨t, _, rfl⟩ := h
    rfl

theorem updateModel_ok (w : World) (id : String) (body : ModelBody) (n : Int)
    (d : ModelUpdateData) (m : Model) (hp : parseInt id = .int n)
    (hb : buildUpdateData body = some d) (hk : d.keyCount ≠ 0) (hacc : d.accepted = true)
    (hm : w.store.models.find? (fun x => decide (x.id = n)) = some m) :
    updateModel w id body =
      (.json 200 (.model (m.apply d)),
       { w with store :=
          { w.store.log (.modelUpdate n) with
            models := w.store.models.map (fun x => if x.id = n then x.apply d else x) } }) := by
  unfold updateModel
  rw [hp]
  simp only [hb]
  rw [modelUpdate_ok w.store n d m hacc hm, if_neg hk]

theorem deleteFile_keeps_refused (fullPath : String → String) (fs fs1 : FileSys)
    (ref : Option String) (q : String) (h : deleteFile fullPath fs ref = .ok fs1)
    (hq : unlinkSync fs q = .error .notPermitted) :
    unlinkSync fs1 q = .error .notPermitted := by
  rcases deleteFile_cases fullPath fs ref with ⟨h1, _⟩ | ⟨p, _, _, _, hu, h1⟩
  · rw [h1] at h; cases h; exact hq
  · rw [h1] at h
    cases h
    have hqp : q ≠ fullPath p := by
      intro hqp
      rw [hqp, hu] at hq
      cases hq
    cases hf : fs.find? (fun e => decide (e.1 = q)) with
    | none =>
      rw [unlinkSync_none fs q hf] at hq
      cases hq
    | some e =>
      obtain ⟨a, b⟩ := e
      cases b
      · exact unlinkSync_false _ q a ((find_filter_ne fs (fullPath p) q hqp).trans hf)
      · rw [unlinkSync_true fs q a hf] at hq
        cases hq

theorem exists_of_refused (fs : FileSys) (q : String)
    (hq : unlinkSync fs q = .error .notPermitted) : existsSync fs q = true := by
  rw [existsSync_eq_find]
  cases hf : fs.find? (fun e => decide (e.1 = q)) with
  | none =>
    rw [unlinkSync_none fs q hf] at hq
    cases hq
  | some e => rfl

theorem getModel_nan (w : World) (id : String) (hp : parseInt id = .nan) :
    getModel w id = (.json 400 (.error "Invalid model ID."), w) := by
  unfold getModel
  rw [hp]

theorem updateModel_nan (w : World) (id : String) (body : ModelBody)
    (hp : parseInt id = .nan) :
    updateModel w id body = (.json 400 (.error "Invalid model ID."), w) := by
  unfold updateModel
  rw [hp]

theorem getModel_absent (w : World) (id : String) (n : Int) (hp : parseInt id = .int n)
    (hm : w.store.models.find? (fun m => decide (m.id = n)) = none) :
    getModel w id =
      (.json 404 (.error "Model not found"),
       { w with store := w.store.log (.modelFindUnique n) }) := by
  unfold getModel
  rw [hp]
  simp only [modelFindUnique, hm]

theorem getModel_present (w : World) (id : String) (n : Int) (m : Model)
    (hp : parseInt id = .int n)
    (hm : w.store.models.find? (fun m => decide (m.id = n)) = some m) :
    getModel w id =
      (.json 200 (.model m), { w with store := w.store.log (.modelFindUnique n) }) := by
  unfold getModel
  rw [hp]
  simp only [modelFindUnique, hm]

theorem deleteFile_missing (fullPath : String → String) (fs : FileSys) (p : String)
    (h : existsSync fs (fullPath p) = false) : deleteFile fullPath fs (some p) = .ok fs := by
  unfold deleteFile
  by_cases hp : p = ""
  · simp [hp]
  · simp [hp, h]

theorem deleteFile_refused (fullPath : String → String) (fs : FileSys) (p : String)
    (h : unlinkSync fs (fullPath p) = .error .notPermitted) :
    deleteFile fullPath fs (some p) = .ok fs := by
  unfold deleteFile
  by_cases hp : p = ""
  · simp [hp]
  · simp only [hp, if_false, h]
    split <;> rfl

theorem listMaterialsByModel_deleteModel (fullPath : String → String) (w : World)
    (id model_id : String) :
    (listMaterialsByModel (deleteModel fullPath w id).2 model_id).1 =
      (listMaterialsByModel w model_id).1 := by
  have hmat := deleteModel_materials fullPath w id
  unfold listMaterialsByModel
  cases parseInt model_id with
  | nan => rfl
  | int k => simp only [materialFindManyWhere, hmat]

theorem indexedRev_eq (p : List Char) :
    ((List.range p.length).zip p).reverse = indexedRev p.reverse := by
  induction p using List.reverseRecOn with
  | nil => rfl
  | append_singleton q c ih =>
    rw [List.length_append, List.length_singleton, List.range_succ,
      List.zip_append (by simp), List.reverse_append, List.reverse_append]
    simp only [List.zip_cons_cons, List.zip_nil_right, List.reverse_cons, List.reverse_nil,
      List.nil_append, List.singleton_append]
    rw [ih]
    simp [indexedRev]

theorem extnameLoop_keep (r : List Char) (st : ExtState) (hd : st.startDot ≠ -1)
    (he : st.endIdx ≠ -1) (hm : st.matchedSlash = false) (hs : st.preDotState ≠ 0) :
    (extnameLoop (indexedRev r) st).startDot = st.startDot ∧
    (extnameLoop (indexedRev r) st).endIdx = st.endIdx ∧
    (extnameLoop (indexedRev r) st).preDotState ≠ 0 := by
  induction r generalizing st with
  | nil => exact ⟨rfl, rfl, hs⟩
  | cons c r ih =>
    simp only [indexedRev, extnameLoop]
    by_cases hc : c = '/'
    · simp only [hc, if_true, hm, Bool.false_eq_true, if_false]
      exact ⟨trivial, trivial, hs⟩
    · simp only [hc, if_false, he]
      by_cases hdot : c = '.'
      · simp only [hdot, if_true, hd, if_false]
        by_cases h1 : st.preDotState = 1
        · simp only [h1, ne_eq, not_true_eq_false, if_false]
          exact ih st hd he hm hs
        · simp only [h1, ne_eq, not_false_eq_true, if_true]
          exact ih _ hd he hm (by simp)
      · simp only [hdot, if_false, hd, ne_eq, not_false_eq_true, if_true]
        exact ih _ hd he hm (by simp)

theorem extnameLoop_afterDot (r : List Char) (st : ExtState) (hd : st.startDot ≠ -1)
    (he : st.endIdx ≠ -1) (hm : st.matchedSlash = false) (hs : st.preDotState = 0) :
    (extnameLoop (indexedRev r) st).startDot = st.startDot ∧
    (extnameLoop (indexedRev r) st).endIdx = st.endIdx ∧
    ((extnameLoop (indexedRev r) st).preDotState = 0 ↔
      r.takeWhile (fun c => decide (c ≠ '/')) = []) := by
  cases r with
  | nil => exact ⟨rfl, rfl, by simp [indexedRev, extnameLoop, hs]⟩
  | cons c r =>
    simp only [indexedRev, extnameLoop]
    by_cases hc : c = '/'
    · simp only [hc, if_true, hm, Bool.false_eq_true, if_false]
      exact ⟨trivial, trivial, by simp [hs]⟩
    · simp only [hc, if_false, he]
      have htw : ¬ List.takeWhile (fun c => decide (c ≠ '/')) (c :: r) = [] := by
        simp [List.takeWhile_cons, hc]
      by_cases hdot : c = '.'
      · simp only [hdot, if_true, hd, if_false, hs]
        obtain ⟨h1, h2, h3⟩ := extnameLoop_keep r { st with preDotState := 1 } hd he hm
          (by simp)
        refine ⟨h1, h2, ?_⟩
        rw [hdot] at htw
        simp only [htw, iff_false]
        simpa using h3
      · simp only [hdot, if_false, hd, ne_eq, not_false_eq_true, if_true]
        obtain ⟨h1, h2, h3⟩ := extnameLoop_keep r { st with preDotState := -1 } hd he hm
          (by simp)
        refine ⟨h1, h2, ?_⟩
        simp only [htw, iff_false]
        exact h3

theorem extnameLoop_name (r : List Char) (st : ExtState) (hd : st.startDot = -1)
    (he : st.endIdx ≠ -1) (hm : st.matchedSlash = false) (hs : st.preDotState = 0) :
    (extnameLoop (indexedRev r) st).endIdx = st.endIdx ∧
    ((r.takeWhile (fun c => decide (c ≠ '/'))).dropWhile (fun c => decide (c ≠ '.')) = [] →
      (extnameLoop (indexedRev r) st).startDot = -1) ∧
    ((r.takeWhile (fun c => decide (c ≠ '/'))).dropWhile (fun c => decide (c ≠ '.')) ≠ [] →
      (extnameLoop (indexedRev r) st).startDot =
        (r.length : Int) - 1 -
          ((r.takeWhile (fun c => decide (c ≠ '/'))).takeWhile
            (fun c => decide (c ≠ '.'))).length ∧
      ((extnameLoop (indexedRev r) st).preDotState = 0 ↔
        (r.takeWhile (fun c => decide (c ≠ '/'))).dropWhile (fun c => decide (c ≠ '.')) =
          ['.'])) := by
  induction r generalizing st with
  | nil => exact ⟨rfl, fun _ => hd, fun h => absurd rfl h⟩
  | cons c r ih =>
    simp only [indexedRev, extnameLoop]
    by_cases hc : c = '/'
    · subst hc
      simp only [if_true, hm, Bool.false_eq_true, if_false]
      refine ⟨trivial, fun _ => hd, fun h => ?_⟩
      simp [List.takeWhile_cons] at h
    · simp only [hc, if_false, he]
      have htw : List.takeWhile (fun c => decide (c ≠ '/')) (c :: r) =
          c :: List.takeWhile (fun c => decide (c ≠ '/')) r := by
        simp [List.takeWhile_cons, hc]
      rw [htw]
      by_cases hdot : c = '.'
      · subst hdot
        simp only [if_true, hd]
        obtain ⟨h1, h2, h3⟩ := extnameLoop_afterDot r { st with startDot := (r.length : Int) }
          (by simp) he hm hs
        refine ⟨h2, fun h => ?_, fun _ => ⟨?_, ?_⟩⟩
        · simp [List.dropWhile_cons] at h
        · rw [h1]
          simp [List.takeWhile_cons]
        · rw [h3]
          simp [List.dropWhile_cons]
      · simp only [hdot, if_false, hd, ne_eq, not_true_eq_false]
        obtain ⟨h1, h2, h3⟩ := ih st hd he hm hs
        have hdw : List.dropWhile (fun c => decide (c ≠ '.'))
            (c :: List.takeWhile (fun c => decide (c ≠ '/')) r) =
            List.dropWhile (fun c => decide (c ≠ '.'))
              (List.takeWhile (fun c => decide (c ≠ '/')) r) := by
          simp [List.dropWhile_cons, hdot]
        have htk : List.takeWhile (fun c => decide (c ≠ '.'))
            (c :: List.takeWhile (fun c => decide (c ≠ '/')) r) =
            c :: List.takeWhile (fun c => decide (c ≠ '.'))
              (List.takeWhile (fun c => decide (c ≠ '/')) r) := by
          simp [List.takeWhile_cons, hdot]
        rw [hdw, htk]
        refine ⟨h1, h2, fun h => ?_⟩
        obtain ⟨h4, h5⟩ := h3 h
        refine ⟨?_, h5⟩
        rw [h4]
        simp only [List.length_cons]
        push_cast
        omega

theorem extnameLoop_skip (r : List Char) (st : ExtState) (hm : st.matchedSlash = true) :
    extnameLoop (indexedRev r) st =
      extnameLoop (indexedRev (r.dropWhile (fun c => decide (c = '/')))) st := by
  induction r with
  | nil => rfl
  | cons c r ih =>
    by_cases hc : c = '/'
    · simp only [indexedRev, extnameLoop, hc, if_true, hm, List.dropWhile_cons,
        decide_True]
      exact ih
    · simp [List.dropWhile_cons, hc]

theorem extnameLoop_first (c : Char) (r : List Char) (st : ExtState) (hc : c ≠ '/')
    (he : st.endIdx = -1) :
    extnameLoop (indexedRev (c :: r)) st =
      extnameLoop (indexedRev (c :: r))
        { st with matchedSlash := false, endIdx := (r.length : Int) + 1 } := by
  have hne : ¬ ((r.length : Int) + 1 = -1) := by omega
  simp only [indexedRev, extnameLoop, hc, if_false, he, if_true, hne]

theorem dropWhile_head_not (q : Char → Bool) (r : List Char) (c : Char) (t : List Char)
    (h : r.dropWhile q = c :: t) : q c = false := by
  induction r with
  | nil => cases h
  | cons a r ih =>
    by_cases ha : q a = true
    · rw [List.dropWhile_cons, if_pos ha] at h
      exact ih h
    · rw [List.dropWhile_cons, if_neg ha] at h
      cases h
      simpa using ha

theorem extname_finish (p r1 trail : List Char) (fin : ExtState)
    (hp : p = r1.reverse ++ trail) (hE : fin.endIdx = (r1.length : Int))
    (hN : (r1.takeWhile (fun c => decide (c ≠ '/'))).dropWhile (fun c => decide (c ≠ '.')) = [] →
      fin.startDot = -1)
    (hD : (r1.takeWhile (fun c => decide (c ≠ '/'))).dropWhile (fun c => decide (c ≠ '.')) ≠ [] →
      fin.startDot = (r1.length : Int) - 1 -
          ((r1.takeWhile (fun c => decide (c ≠ '/'))).takeWhile
            (fun c => decide (c ≠ '.'))).length ∧
      (fin.preDotState = 0 ↔
        (r1.takeWhile (fun c => decide (c ≠ '/'))).dropWhile (fun c => decide (c ≠ '.')) =
          ['.'])) :
    (if (decide (fin.startDot = -1) || decide (fin.endIdx = -1) ||
          decide (fin.preDotState = 0) ||
          (decide (fin.preDotState = 1) && decide (fin.startDot = fin.endIdx - 1) &&
            decide (fin.startDot = fin.startPart + 1))) = true then []
      else (p.take fin.endIdx.toNat).drop fin.startDot.toNat).drop 1 =
    (if ((r1.takeWhile (fun c => decide (c ≠ '/'))).dropWhile
            (fun c => decide (c ≠ '.'))).reverse = [] ∨
        ((r1.takeWhile (fun c => decide (c ≠ '/'))).dropWhile
            (fun c => decide (c ≠ '.'))).reverse = ['.'] then []
      else ((r1.takeWhile (fun c => decide (c ≠ '/'))).takeWhile
        (fun c => decide (c ≠ '.'))).reverse) := by
  have hname := List.takeWhile_append_dropWhile (fun c => decide (c ≠ '/')) r1
  have hAD := List.takeWhile_append_dropWhile (fun c => decide (c ≠ '.'))
    (r1.takeWhile (fun c => decide (c ≠ '/')))
  generalize hname' : r1.takeWhile (fun c => decide (c ≠ '/')) = name at *
  generalize hT : r1.dropWhile (fun c => decide (c ≠ '/')) = T at *
  generalize hA : name.takeWhile (fun c => decide (c ≠ '.')) = A at *
  generalize hDD : name.dropWhile (fun c => decide (c ≠ '.')) = D at *
  by_cases hDn : D = []
  · simp [hN hDn, hDn]
  · obtain ⟨hS, hP⟩ := hD hDn
    by_cases hDd : D = ['.']
    · simp [hP.mpr hDd, hDd]
    · have hP0 : ¬ fin.preDotState = 0 := fun h => hDd (hP.mp h)
      have hlen : r1.length = A.length + D.length + T.length := by
        rw [← hname, ← hAD]
        simp only [List.length_append]
      have hDpos : 0 < D.length := List.length_pos.mpr hDn
      have hrhs : ¬ (D.reverse = [] ∨ D.reverse = ['.']) := by
        intro h
        rcases h with h | h
        · exact hDn (by simpa using h)
        · exact hDd (by simpa using congrArg List.reverse h)
      rw [if_neg hrhs]
      by_cases h4 : fin.preDotState = 1 ∧ fin.startDot = fin.endIdx - 1 ∧
          fin.startDot = fin.startPart + 1
      · have hcond : (decide (fin.startDot = -1) || decide (fin.endIdx = -1) ||
            decide (fin.preDotState = 0) ||
            (decide (fin.preDotState = 1) && decide (fin.startDot = fin.endIdx - 1) &&
              decide (fin.startDot = fin.startPart + 1))) = true := by
          simp [h4.1, h4.2.1.symm, h4.2.2.symm]
        rw [if_pos hcond]
        have hA0 : A.length = 0 := by
          have := h4.2.1
          rw [hS, hE] at this
          omega
        have : A = [] := List.length_eq_zero.mp hA0
        simp [this]
      · have hcond : ¬ (decide (fin.startDot = -1) || decide (fin.endIdx = -1) ||
            decide (fin.preDotState = 0) ||
            (decide (fin.preDotState = 1) && decide (fin.startDot = fin.endIdx - 1) &&
              decide (fin.startDot = fin.startPart + 1))) = true := by
          have h1 : ¬ fin.startDot = -1 := by rw [hS]; omega
          have h2 : ¬ fin.endIdx = -1 := by rw [hE]; omega
          simp only [Bool.or_eq_true, Bool.and_eq_true, decide_eq_true_eq, h1, h2, hP0,
            false_or]
          intro h
          exact h4 ⟨h.1.1, h.1.2, h.2⟩
        rw [if_neg hcond]
        have he : fin.endIdx.toNat = r1.length := by rw [hE]; simp
        have hs : fin.startDot.toNat = D.length + T.length - 1 := by rw [hS]; omega
        rw [he, hs, hp, List.take_left' (by simp), List.drop_drop]
        have hr : r1.reverse = (D ++ T).reverse ++ A.reverse := by
          rw [← hname, ← hAD]
          simp [List.reverse_append]
        rw [hr]
        exact List.drop_left' (by simp [List.length_append]; omega)

/-- The scan of `path.extname`, with the dot dropped, finds the extension as
the spec words it. -/
theorem extnameChars_drop (p : List Char) :
    (extnameChars p).drop 1 = extensionOfChars p := by
  unfold extnameChars extensionOfChars
  simp only [List.reverse_reverse]
  rw [indexedRev_eq, extnameLoop_skip _ _ rfl]
  have hsplit : p.reverse = p.reverse.takeWhile (fun c => decide (c = '/')) ++
      p.reverse.dropWhile (fun c => decide (c = '/')) :=
    (List.takeWhile_append_dropWhile _ _).symm
  cases hr1 : p.reverse.dropWhile (fun c => decide (c = '/')) with
  | nil => simp [indexedRev, extnameLoop]
  | cons c r1 =>
    have hc : c ≠ '/' := by
      have := dropWhile_head_not _ _ _ _ hr1
      simpa using this
    rw [extnameLoop_first c r1 _ hc rfl]
    obtain ⟨hE, hN, hD⟩ := extnameLoop_name (c :: r1)
      { startDot := -1, startPart := 0, endIdx := (r1.length : Int) + 1, matchedSlash := false,
        preDotState := 0 } rfl (by simp; omega) rfl rfl
    have hp : p = (c :: r1).reverse ++
        (p.reverse.takeWhile (fun c => decide (c = '/'))).reverse := by
      rw [← List.reverse_append, ← hr1, ← hsplit, List.reverse_reverse]
    exact extname_finish p (c :: r1) _ _ hp (by rw [hE]; simp) hN hD

/-- The handler's expression computes the uppercased extension as the spec
words it. -/
theorem fileTypeOf_eq_upperExtension (p : String) : fileTypeOf p = upperExtension p := by
  unfold fileTypeOf upperExtension slice1 extname extensionOf
  rw [← extnameChars_drop]
  rfl

set_option maxRecDepth 100000 in
theorem upperCodes_ascii :
    ∀ n < 128, upperCodes n = [if 97 ≤ n ∧ n ≤ 122 then n - 32 else n] := by
  decide

theorem upperChar_ascii (c : Char) (h : c.toNat < 128) : upperChar c = [c.toUpper] := by
  unfold upperChar Char.toUpper
  rw [upperCodes_ascii c.toNat h]
  by_cases hr : c.toNat ≥ 97 ∧ c.toNat ≤ 122
  · simp [hr]
  · have hr2 : ¬ (97 ≤ c.toNat ∧ c.toNat ≤ 122) := hr
    simp [hr, hr2]

theorem upper_ascii (cs : List Char) (h : ∀ c ∈ cs, c.toNat < 128) :
    (cs.map upperChar).flatten = cs.map Char.toUpper := by
  induction cs with
  | nil => rfl
  | cons c cs ih =>
    rw [List.map_cons, List.flatten_cons, upperChar_ascii c (h c (List.mem_cons_self c cs)),
      ih (fun x hx => h x (List.mem_cons_of_mem c hx))]
    rfl

theorem upperExtension_ascii (p : String)
    (h : ∀ c ∈ (extensionOf p).toList, c.toNat < 128) :
    (upperExtension p).toList = (extensionOf p).toList.map Char.toUpper := by
  unfold upperExtension toUpperCase
  exact upper_ascii _ h

/-! ## The claims -/

/-- C1: in every reachable state each stored Model's `fileType` is the
uppercased extension of its current `filePath`, with no leading dot, where the
extension is worded as in the spec (the text after the last dot of the file
name) and not as the handler computes it; a create that succeeds there returns
and stores a record whose `filePath` is the supplied one and whose `fileType`
is that uppercased extension; an update that succeeds there returns a record
with the same equality and leaves every stored record with it, whatever the
patch; and when the extension is ASCII the stored `fileType` is the extension
with `a`..`z` replaced by `A`..`Z`. -/
theorem C1_fileType_consistent (fullPath : String → String) (w : World)
    (h : Reachable fullPath w) :
    (∀ m ∈ w.store.models, m.fileType = upperExtension m.filePath) ∧
    (∀ body m w1, createModel w body = (.json 201 (.model m), w1) →
      body.filePath = .str m.filePath ∧ m.fileType = upperExtension m.filePath ∧
        m ∈ w1.store.models) ∧
    (∀ id body m w1, updateModel w id body = (.json 200 (.model m), w1) →
      m.fileType = upperExtension m.filePath ∧
        ∀ x ∈ w1.store.models, x.fileType = upperExtension x.filePath) ∧
    (∀ m ∈ w.store.models, (∀ c ∈ (extensionOf m.filePath).toList, c.toNat < 128) →
      m.fileType.toList = (extensionOf m.filePath).toList.map Char.toUpper) := by
  have hw := reachable_consistent fullPath w h
  refine ⟨?_, ?_, ?_, ?_⟩
  · intro m hm
    rw [hw m hm, fileTypeOf_eq_upperExtension]
  · intro body m w1 hc
    obtain ⟨p, _, h1, h2, h3, h4, _⟩ := createModel_created w body m w1 hc
    refine ⟨by rw [h1, h2], by rw [h3, h2, fileTypeOf_eq_upperExtension], ?_⟩
    rw [h4]
    simp
  · intro id body m w1 hu
    have hall := updateModel_consistent w id body hw
    rw [hu] at hall
    refine ⟨?_, fun x hx => by rw [hall x hx, fileTypeOf_eq_upperExtension]⟩
    rcases updateModel_cases w id body with ⟨_, _, h3⟩ | ⟨n, d, m0, _, hb, _, _, hm0, hr, _, _⟩
    · rw [hu] at h3
      exact absurd rfl h3
    · rw [hu] at hr
      cases hr
      rw [apply_consistent m0 body d hb (hw m0 (List.mem_of_find?_eq_some hm0)),
        fileTypeOf_eq_upperExtension]
  · intro m hm hascii
    rw [hw m hm, fileTypeOf_eq_upperExtension]
    exact upperExtension_ascii m.filePath hascii

/-- C1, on closed inputs: posting `filePath = "x/model.GLB"` to the fresh
server stores the file type `"GLB"` and the state reached is consistent; a
lower-case extension is stored in upper case by create (`"uploads/1.obj"`
gives `"OBJ"`) and by update (`"uploads/9.fbx"` gives `"FBX"`); outside ASCII
`"uploads/x.é"` gives `"É"` and `"uploads/x.ß"` gives `"SS"`. -/
theorem C1_fileType_consistent_witness :
    (createModel freshWorld
        { name := .str "model", filePath := .str "x/model.GLB", thumbnailPath := .undefined,
          size := .undefined }).1 =
      .json 201 (.model { id := 1, name := "model", filePath := "x/model.GLB", fileType := "GLB",
                          thumbnailPath := none, size := none, createdAt := 0 }) ∧
    (∀ m ∈ (createModel freshWorld
        { name := .str "model", filePath := .str "x/model.GLB", thumbnailPath := .undefined,
          size := .undefined }).2.store.models, m.fileType = upperExtension m.filePath) ∧
    (createModel freshWorld chair).1 =
      .json 201 (.model { id := 1, name := "Chair", filePath := "uploads/1.obj",
                          fileType := "OBJ", thumbnailPath := none, size := none,
                          createdAt := 0 }) ∧
    (updateModel chairWorld "1" (onlyFilePath "uploads/9.fbx")).1 =
      .json 200 (.model { id := 1, name := "Chair", filePath := "uploads/9.fbx",
                          fileType := "FBX", thumbnailPath := none, size := none,
                          createdAt := 0 }) ∧
    (createModel freshWorld { chair with filePath := .str "uploads/x.é" }).1 =
      .json 201 (.model { id := 1, name := "Chair", filePath := "uploads/x.é",
                          fileType := "É", thumbnailPath := none, size := none,
                          createdAt := 0 }) ∧
    (createModel freshWorld { chair with filePath := .str "uploads/x.ß" }).1 =
      .json 201 (.model { id := 1, name := "Chair", filePath := "uploads/x.ß",
                          fileType := "SS", thumbnailPath := none, size := none,
                          createdAt := 0 }) ∧
    upperExtension "x/model.GLB" = "GLB" ∧ upperExtension "uploads/1.obj" = "OBJ" ∧
    upperExtension "uploads/x.é" = "É" ∧ upperExtension "uploads/x.ß" = "SS" :=
  ⟨by decide,
   (C1_fileType_consistent appDir _
      (Reachable.step _ (.createModel
        { name := .str "model", filePath := .str "x/model.GLB", thumbnailPath := .undefined,
          size := .undefined }) (Reachable.init []))).1,
   by decide, by decide, by decide, by decide, by decide, by decide, by decide, by decide⟩

/-- C2, as stated, fails in its last part: the patch supplying only
`filePath: ""` to the stored Stool record does not change `filePath` and
`fileType`; it is answered 400 "No update data provided." and the record
keeps `filePath = "uploads/2.glb"` and `fileType = "GLB"`. -/
theorem C2_only_empty_filePath_counterexample :
    (stoolWorld []).store.models = [stoolRecord] ∧
    (updateModel (stoolWorld []) "1" (onlyFilePath "")).1 =
      .json 400 (.error "No update data provided.") ∧
    (updateModel (stoolWorld []) "1" (onlyFilePath "")).2.store.models = [stoolRecord] ∧
    stoolRecord.filePath ≠ "" := by
  decide

/-- C2, amended: for an existing Model and any update patch, each of `name`,
`thumbnailPath` and `size` that the patch does not supply has, in the record
stored after the update (which is the record returned when the update
succeeds), the value it had before; a patch supplying only a non-empty
`filePath` succeeds and returns the record with `filePath` replaced, `fileType`
recomputed and nothing else changed; a patch supplying only an empty
`filePath` is answered 400 "No update data provided." and changes nothing. -/
theorem C2_update_frame (w : World) (id : String) (body : ModelBody) (n : Int) (m : Model)
    (hp : parseInt id = .int n)
    (hm : w.store.models.find? (fun x => decide (x.id = n)) = some m) :
    (∃ m1, (updateModel w id body).2.store.models.find? (fun x => decide (x.id = n)) = some m1 ∧
      (body.name = .undefined → m1.name = m.name) ∧
      (body.thumbnailPath = .undefined → m1.thumbnailPath = m.thumbnailPath) ∧
      (body.size = .undefined → m1.size = m.size) ∧
      (∀ r, (updateModel w id body).1 = .json 200 (.model r) → r = m1)) ∧
    (∀ p, p ≠ "" →
      body = { name := .undefined, filePath := .str p, thumbnailPath := .undefined,
               size := .undefined } →
      (updateModel w id body).1 =
        .json 200 (.model { m with filePath := p, fileType := fileTypeOf p })) ∧
    (body = { name := .undefined, filePath := .str "", thumbnailPath := .undefined,
              size := .undefined } →
      updateModel w id body = (.json 400 (.error "No update data provided."), w)) := by
  refine ⟨?_, ?_, ?_⟩
  · rcases updateModel_cases w id body with ⟨h1, _, h3⟩ | ⟨n1, d, m0, hp1, hb, _, _, hm0, hr, hs, _⟩
    · refine ⟨m, by rw [h1]; exact hm, fun _ => rfl, fun _ => rfl, fun _ => rfl, ?_⟩
      intro r hr
      rw [hr] at h3
      exact absurd rfl h3
    · rw [hp] at hp1
      cases hp1
      rw [hm] at hm0
      cases hm0
      obtain ⟨hn, ht, hsz, _⟩ := buildUpdateData_spec body d hb
      refine ⟨m.apply d, ?_, ?_, ?_, ?_, ?_⟩
      · rw [hs, find_map_apply, hm]
        rfl
      · intro hu
        simp [Model.apply, hn, hu, updText]
      · intro hu
        simp [Model.apply, ht, hu, updTextOrNull]
      · intro hu
        have : d.size = .undefined := by
          simp [sizeKey, hu] at hsz
          exact hsz.symm
        simp [Model.apply, this, updTextOrNull]
      · intro r hr1
        rw [hr] at hr1
        cases hr1
        rfl
  · intro p hp0 hbody
    subst hbody
    have htr : truthy (.str p) = true := by simp [truthy, hp0]
    have hb : buildUpdateData
        { name := .undefined, filePath := .str p, thumbnailPath := .undefined,
          size := .undefined } =
        some { name := .undefined, thumbnailPath := .undefined, size := .undefined,
               filePath := .str p, fileType := .str (fileTypeOf p) } := by
      simp [buildUpdateData, htr]
    unfold updateModel
    rw [hp]
    simp only [hb]
    rw [modelUpdate_ok w.store n _ m (by rfl) hm]
    simp [ModelUpdateData.keyCount, Model.apply, updText, updTextOrNull]
  · intro hbody
    subst hbody
    unfold updateModel
    rw [hp, buildUpdateData_falsy
      { name := .undefined, filePath := .str "", thumbnailPath := .undefined,
        size := .undefined } (by decide)]
    rfl

/-- C2 amended, on a record with a name, a thumbnail and a size: replacing
only the file path keeps all three. -/
theorem C2_update_frame_witness :
    parseInt "1" = .int 1 ∧
    (stoolWorld []).store.models.find? (fun x => decide (x.id = 1)) = some stoolRecord ∧
    (updateModel (stoolWorld []) "1" (onlyFilePath "uploads/3.obj")).1 =
      .json 200 (.model { id := 1, name := "Stool", filePath := "uploads/3.obj",
                          fileType := "OBJ", thumbnailPath := some "uploads/2.png",
                          size := some "2048", createdAt := 0 }) :=
  ⟨by decide, by decide,
   (C2_update_frame (stoolWorld []) "1" (onlyFilePath "uploads/3.obj") 1 stoolRecord
      (by decide) (by decide)).2.1 "uploads/3.obj" (by decide) rfl⟩

/-- C3, as stated, fails: a patch whose only key is `filePath: ""` on the
existing Model 1 is answered 400 "No update data provided." and changes
nothing; with a `name` beside it the update succeeds but the record keeps its
old `filePath` and `fileType`. -/
theorem C3_empty_filePath_counterexample :
    updateModel chairWorld "1" (onlyFilePath "") =
      (.json 400 (.error "No update data provided."), chairWorld) ∧
    (updateModel chairWorld "1"
        { name := .str "Bench", filePath := .str "", thumbnailPath := .undefined,
          size := .undefined }).1 =
      .json 200 (.model { chairRecord with name := "Bench" }) := by
  decide

/-- C3, amended: for an existing Model and a patch whose `filePath` is a
string `p`: when `p` is not empty (and the other supplied values are ones the
store accepts) the update is applied, the record's `filePath` becomes `p` and
its `fileType` is recomputed from `p`; when `p` is empty the patch is handled
exactly as if `filePath` were not supplied, and when nothing else is supplied
the answer is 400 "No update data provided." with nothing changed. -/
theorem C3_update_filePath (w : World) (id : String) (body : ModelBody) (n : Int) (m : Model)
    (p : String) (hp : parseInt id = .int n)
    (hm : w.store.models.find? (fun x => decide (x.id = n)) = some m)
    (hf : body.filePath = .str p) :
    (p ≠ "" → isTextOrAbsent body.name = true → isTextOrNull body.thumbnailPath = true →
      jsString body.size ≠ none →
      ∃ m1, (updateModel w id body).1 = .json 200 (.model m1) ∧ m1.filePath = p ∧
        m1.fileType = fileTypeOf p ∧
        (updateModel w id body).2.store.models.find? (fun x => decide (x.id = n)) = some m1) ∧
    (p = "" →
      updateModel w id body = updateModel w id { body with filePath := .undefined } ∧
      (body.name = .undefined → body.thumbnailPath = .undefined → body.size = .undefined →
        updateModel w id body = (.json 400 (.error "No update data provided."), w))) := by
  constructor
  · intro hp0 hname hthumb hsize
    have hsz : ∃ sz, sizeKey body.size = some sz := by
      unfold sizeKey
      by_cases hu : body.size = .undefined
      · exact ⟨.undefined, by simp [hu]⟩
      · cases hj : jsString body.size with
        | none => exact absurd hj hsize
        | some t => exact ⟨.str t, by simp [hu]⟩
    obtain ⟨sz, hsz⟩ := hsz
    have hb := buildUpdateData_truthy body p sz hf hp0 hsz
    have hacc : ModelUpdateData.accepted
        { name := body.name, thumbnailPath := body.thumbnailPath, size := sz,
          filePath := .str p, fileType := .str (fileTypeOf p) } = true := by
      simp only [ModelUpdateData.accepted, hname, hthumb, sizeKey_accepted _ _ hsz]
      rfl
    have hu := updateModel_ok w id body n _ m hp hb (by simp [ModelUpdateData.keyCount]) hacc hm
    refine ⟨_, by rw [hu], ?_, ?_, ?_⟩
    · simp [Model.apply, updText]
    · simp [Model.apply, updText]
    · rw [hu]
      simp only
      rw [find_map_apply, hm]
      rfl
  · intro hp0
    subst hp0
    have hfalsy : truthy body.filePath = false := by rw [hf]; rfl
    have hb := buildUpdateData_falsy body hfalsy
    have hb2 := buildUpdateData_falsy { body with filePath := .undefined } rfl
    constructor
    · unfold updateModel
      rw [hb, hb2]
    · intro h1 h2 h3
      unfold updateModel
      rw [hp, hb, h1, h2, h3]
      rfl

/-- C3 amended, on the Chair record: a non-empty `filePath` is applied, an
empty one is ignored. -/
theorem C3_update_filePath_witness :
    (∃ m1, (updateModel chairWorld "1" (onlyFilePath "uploads/9.fbx")).1 =
        .json 200 (.model m1) ∧ m1.filePath = "uploads/9.fbx" ∧
        m1.fileType = fileTypeOf "uploads/9.fbx" ∧
        (updateModel chairWorld "1" (onlyFilePath "uploads/9.fbx")).2.store.models.find?
          (fun x => decide (x.id = 1)) = some m1) ∧
    updateModel chairWorld "1" (onlyFilePath "") =
      (.json 400 (.error "No update data provided."), chairWorld) :=
  ⟨(C3_update_filePath chairWorld "1" (onlyFilePath "uploads/9.fbx") 1 chairRecord
      "uploads/9.fbx" (by decide) (by decide) rfl).1 (by decide) rfl rfl (by decide),
   ((C3_update_filePath chairWorld "1" (onlyFilePath "") 1 chairRecord
      "" (by decide) (by decide) rfl).2 rfl).2 rfl rfl rfl⟩

/-- C4, as stated, fails: the ids `"1.5"`, `"12abc"`, `"0"` and `"-5"` are not
rejected.  `"1.5"` is read as 1: get returns Model 1 and delete removes it;
`"12abc"`, `"0"` and `"-5"` are read as 12, 0 and -5 and looked up in the
store, with a 404 answer, not a 400 one. -/
theorem C4_malformed_id_counterexample :
    (getModel chairWorld "1.5").1 = .json 200 (.model chairRecord) ∧
    (deleteModel appDir chairWorld "1.5").1 = .send 204 ∧
    (deleteModel appDir chairWorld "1.5").2.store.models = [] ∧
    (getModel chairWorld "12abc").1 = .json 404 (.error "Model not found") ∧
    (getModel chairWorld "12abc").2.store.calls =
      chairWorld.store.calls ++ [.modelFindUnique 12] ∧
    (updateModel chairWorld "0" (onlyFilePath "uploads/3.obj")).1 =
      .json 404 (.error "Model not found") ∧
    (updateModel chairWorld "0" (onlyFilePath "uploads/3.obj")).2.store.calls =
      chairWorld.store.calls ++ [.modelUpdate 0] ∧
    (deleteModel appDir chairWorld "-5").1 = .json 404 (.error "Model not found") ∧
    (deleteModel appDir chairWorld "-5").2.store.calls =
      chairWorld.store.calls ++ [.modelFindUnique (-5), .modelDelete (-5)] := by
  decide

/-- C4, amended: for every id that `parseInt(id, 10)` reads as `NaN` (no
decimal digit after the leading white space and an optional sign, as in
`"abc"`), get, update and delete of a Model each answer 400 "Invalid model ID."
and leave the state as it is: no store call is made and no file is touched.
An id with a leading integer is read as that integer, and get and delete then
go to the store. -/
theorem C4_invalid_id_rejected (fullPath : String → String) (w : World) (id : String)
    (body : ModelBody) :
    (parseInt id = .nan →
      getModel w id = (.json 400 (.error "Invalid model ID."), w) ∧
      updateModel w id body = (.json 400 (.error "Invalid model ID."), w) ∧
      deleteModel fullPath w id = (.json 400 (.error "Invalid model ID."), w)) ∧
    (∀ n, parseInt id = .int n →
      (getModel w id).2.store.calls = w.store.calls ++ [.modelFindUnique n] ∧
      (deleteModel fullPath w id).2.store.calls =
        w.store.calls ++ [.modelFindUnique n, .modelDelete n]) := by
  constructor
  · intro hp
    exact ⟨getModel_nan w id hp, updateModel_nan w id body hp, deleteModel_nan fullPath w id hp⟩
  · intro n hp
    constructor
    · cases hm : w.store.models.find? (fun m => decide (m.id = n)) with
      | none => rw [getModel_absent w id n hp hm]; rfl
      | some m => rw [getModel_present w id n m hp hm]; rfl
    · cases hm : w.store.models.find? (fun m => decide (m.id = n)) with
      | none =>
        rw [deleteModel_absent fullPath w id n hp hm]
        simp [Store.log]
      | some m =>
        obtain ⟨f1, f2, _, _, h⟩ := deleteModel_present fullPath w id n m hp hm
        rw [h]
        simp [Store.log]

/-- C4 amended, on the id `"abc"`: all three operations answer 400 and leave
the state with the Chair record as it was. -/
theorem C4_invalid_id_rejected_witness :
    parseInt "abc" = .nan ∧
    getModel chairWorld "abc" = (.json 400 (.error "Invalid model ID."), chairWorld) ∧
    updateModel chairWorld "abc" stool = (.json 400 (.error "Invalid model ID."), chairWorld) ∧
    deleteModel appDir chairWorld "abc" =
      (.json 400 (.error "Invalid model ID."), chairWorld) :=
  ⟨by decide, (C4_invalid_id_rejected appDir chairWorld "abc" stool).1 (by decide)⟩

/-- C5, as stated, fails: with the Stool record stored and its model file one
whose removal is refused, delete Model 1 succeeds (204) and the model file is
still in storage afterwards. -/
theorem C5_file_remains_counterexample :
    (stoolWorld refusedFiles).store.models = [stoolRecord] ∧
    (deleteModel appDir (stoolWorld refusedFiles) "1").1 = .send 204 ∧
    existsSync (deleteModel appDir (stoolWorld refusedFiles) "1").2.files
      (appDir "uploads/2.glb") = true := by
  decide

/-- C5, amended: when delete Model answers 204, the id was read as an integer
`n` under which a record `m` was stored; afterwards no record has id `n`, get
Model with the same id answers 404 "Model not found", and for each non-empty
one of `m.filePath` and `m.thumbnailPath` the file it resolves to is absent
from storage unless its removal is refused, in which case it is still there. -/
theorem C5_delete_removes (fullPath : String → String) (w : World) (id : String)
    (h : (deleteModel fullPath w id).1 = .send 204) :
    ∃ n m, parseInt id = .int n ∧
      w.store.models.find? (fun x => decide (x.id = n)) = some m ∧
      (deleteModel fullPath w id).2.store.models.find? (fun x => decide (x.id = n)) = none ∧
      (getModel (deleteModel fullPath w id).2 id).1 = .json 404 (.error "Model not found") ∧
      ∀ p, (p = m.filePath ∨ m.thumbnailPath = some p) → p ≠ "" →
        (unlinkSync w.files (fullPath p) ≠ .error .notPermitted →
          existsSync (deleteModel fullPath w id).2.files (fullPath p) = false) ∧
        (unlinkSync w.files (fullPath p) = .error .notPermitted →
          existsSync (deleteModel fullPath w id).2.files (fullPath p) = true) := by
  cases hp : parseInt id with
  | nan =>
    rw [deleteModel_nan fullPath w id hp] at h
    cases h
  | int n =>
    cases hm : w.store.models.find? (fun m => decide (m.id = n)) with
    | none =>
      rw [deleteModel_absent fullPath w id n hp hm] at h
      cases h
    | some m =>
      obtain ⟨f1, f2, h1, h2, hd⟩ := deleteModel_present fullPath w id n m hp hm
      have hgone : (deleteModel fullPath w id).2.store.models.find?
          (fun x => decide (x.id = n)) = none := by
        rw [hd]
        exact find_filter_id w.store.models n
      refine ⟨n, m, rfl, hm, hgone, ?_, ?_⟩
      · rw [getModel_absent _ id n hp hgone]
      · intro p hpm hne
        have hf : (deleteModel fullPath w id).2.files = f2 := by rw [hd]
        rw [hf]
        constructor
        · intro hu
          rcases hpm with rfl | ht
          · exact deleteFile_keeps_absent fullPath f1 f2 _ _ h2
              (deleteFile_absent fullPath w.files f1 _ hne hu h1)
          · rw [ht] at h2
            exact deleteFile_absent fullPath f1 f2 p hne
              (deleteFile_keeps_removable fullPath w.files f1 _ _ h1 hu) h2
        · intro hu
          exact exists_of_refused f2 _
            (deleteFile_keeps_refused fullPath f1 f2 _ _ h2
              (deleteFile_keeps_refused fullPath w.files f1 _ _ h1 hu))

/-- C5 amended, on the Stool record with both files removable: the delete
answers 204, get then answers 404, and both files are gone. -/
theorem C5_delete_removes_witness :
    (deleteModel appDir (stoolWorld removableFiles) "1").1 = .send 204 ∧
    (getModel (deleteModel appDir (stoolWorld removableFiles) "1").2 "1").1 =
      .json 404 (.error "Model not found") ∧
    existsSync (deleteModel appDir (stoolWorld removableFiles) "1").2.files
      (appDir "uploads/2.glb") = false ∧
    existsSync (deleteModel appDir (stoolWorld removableFiles) "1").2.files
      (appDir "uploads/2.png") = false := by
  obtain ⟨n, m, hn, hm, _, hg, hfiles⟩ :=
    C5_delete_removes appDir (stoolWorld removableFiles) "1" (by decide)
  have hn1 : n = 1 := by
    have h1 : parseInt "1" = .int 1 := by decide
    rw [h1] at hn
    cases hn
    rfl
  subst hn1
  have hm1 : m = stoolRecord := by
    have h1 : (stoolWorld removableFiles).store.models.find? (fun x => decide (x.id = 1)) =
        some stoolRecord := by decide
    rw [h1] at hm
    cases hm
    rfl
  subst hm1
  exact ⟨by decide, hg,
    (hfiles "uploads/2.glb" (Or.inl rfl) (by decide)).1 (by decide),
    (hfiles "uploads/2.png" (Or.inr rfl) (by decide)).1 (by decide)⟩

/-- C6: for an existing Model, delete Model answers 204 and removes the record
whatever the files are; and `deleteFile` returns normally on every input: with
no path or an empty one, with a path whose file does not exist, and with a
file whose removal is refused, it returns leaving the files as they are. -/
theorem C6_delete_succeeds (fullPath : String → String) (w : World) (id : String) (n : Int)
    (m : Model) (hp : parseInt id = .int n)
    (hm : w.store.models.find? (fun x => decide (x.id = n)) = some m) :
    (deleteModel fullPath w id).1 = .send 204 ∧
    (deleteModel fullPath w id).2.store.models =
      w.store.models.filter (fun x => decide (x.id ≠ n)) ∧
    (deleteModel fullPath w id).2.store.models.find? (fun x => decide (x.id = n)) = none ∧
    (∀ fs ref, ∃ fs1, deleteFile fullPath fs ref = .ok fs1) ∧
    (∀ fs, deleteFile fullPath fs none = .ok fs ∧ deleteFile fullPath fs (some "") = .ok fs) ∧
    (∀ fs p, existsSync fs (fullPath p) = false → deleteFile fullPath fs (some p) = .ok fs) ∧
    (∀ fs p, existsSync fs (fullPath p) = true →
      unlinkSync fs (fullPath p) = .error .notPermitted →
      deleteFile fullPath fs (some p) = .ok fs) := by
  obtain ⟨f1, f2, _, _, hd⟩ := deleteModel_present fullPath w id n m hp hm
  refine ⟨by rw [hd], by rw [hd], ?_, deleteFile_ok fullPath, ?_, ?_, ?_⟩
  · rw [hd]
    exact find_filter_id w.store.models n
  · intro fs
    exact ⟨rfl, by simp [deleteFile]⟩
  · intro fs p h
    exact deleteFile_missing fullPath fs p h
  · intro fs p _ h
    exact deleteFile_refused fullPath fs p h

/-- C6, on the Stool record whose model file cannot be removed: the delete
still answers 204 and the store is left without records. -/
theorem C6_delete_succeeds_witness :
    unlinkSync (stoolWorld refusedFiles).files (appDir "uploads/2.glb") =
      .error .notPermitted ∧
    (deleteModel appDir (stoolWorld refusedFiles) "1").1 = .send 204 ∧
    (deleteModel appDir (stoolWorld refusedFiles) "1").2.store.models = [] :=
  ⟨by decide,
   (C6_delete_succeeds appDir (stoolWorld refusedFiles) "1" 1 stoolRecord
      (by decide) (by decide)).1,
   by decide⟩

/-- C7: when the id is read as an integer under which no Model is stored,
delete Model answers 404 "Model not found" (not 400, not 500), and files,
Model records and Material records are all as before. -/
theorem C7_delete_absent (fullPath : String → String) (w : World) (id : String) (n : Int)
    (hp : parseInt id = .int n)
    (hm : w.store.models.find? (fun x => decide (x.id = n)) = none) :
    (deleteModel fullPath w id).1 = .json 404 (.error "Model not found") ∧
    (deleteModel fullPath w id).2.files = w.files ∧
    (deleteModel fullPath w id).2.store.models = w.store.models ∧
    (deleteModel fullPath w id).2.store.materials = w.store.materials := by
  rw [deleteModel_absent fullPath w id n hp hm]
  exact ⟨rfl, rfl, rfl, rfl⟩

/-- C7, on the id `"7"` when only Model 1 is stored. -/
theorem C7_delete_absent_witness :
    parseInt "7" = .int 7 ∧
    (stoolWorld removableFiles).store.models.find? (fun x => decide (x.id = 7)) = none ∧
    (deleteModel appDir (stoolWorld removableFiles) "7").1 =
      .json 404 (.error "Model not found") ∧
    (deleteModel appDir (stoolWorld removableFiles) "7").2.files = removableFiles :=
  ⟨by decide, by decide,
   (C7_delete_absent appDir (stoolWorld removableFiles) "7" 7 (by decide) (by decide)).1,
   (C7_delete_absent appDir (stoolWorld removableFiles) "7" 7 (by decide) (by decide)).2.1⟩

/-- C8, as stated, fails: `model_id = "1abc"` is not rejected but read as 1,
and the Material is created for Model 1; `model_id = "12abc"` is read as 12 and
goes to the store, whose refusal (no Model 12) is answered 500, not 400. -/
theorem C8_malformed_modelId_counterexample :
    (createMaterial chairWorld (wood (.str "1abc"))).1 = .json 201 (.material woodRecord) ∧
    (createMaterial chairWorld (wood (.str "1abc"))).2.store.materials = [woodRecord] ∧
    (createMaterial chairWorld (wood (.str "12abc"))).1 =
      .json 500 (.error "Failed to add material.") ∧
    (createMaterial chairWorld (wood (.str "12abc"))).2.store.calls =
      chairWorld.store.calls ++ [.materialCreate] := by
  decide

/-- C8, amended: converting `model_id` to a string throws only for an object
whose conversion throws, and then `parseInt(model_id, 10)` throws outside the
`try`: no response is written, no store call is made and the state is as it
was, whatever `name` is.  Otherwise, with `num` the value of
`parseInt(model_id, 10)`: when `num` is `NaN` or `0`, or `name` is falsy,
create Material answers 400 and leaves the state as it is (no store call, no
record); in every other case `num` is a non-zero integer, the handler calls
the store's create with it and the answer is not a 400. -/
theorem C8_createMaterial_validation (w : World) (body : MaterialBody) :
    (parseIntVal body.model_id = none ↔ body.model_id = .obj none) ∧
    (parseIntVal body.model_id = none → createMaterial w body = (.uncaught, w)) ∧
    (∀ num, parseIntVal body.model_id = some num →
      ((num.truthy = false ∨ truthy body.name = false) →
        createMaterial w body = (.json 400 (.error "model_id and name are required."), w)) ∧
      (num.truthy = true → truthy body.name = true →
        ∃ n, num = .int n ∧ n ≠ 0 ∧
          (createMaterial w body).2.store.calls = w.store.calls ++ [.materialCreate] ∧
          (createMaterial w body).1.status ≠ some 400)) := by
  refine ⟨?_, ?_, ?_⟩
  · unfold parseIntVal
    cases hb : body.model_id with
    | obj t => cases t <;> simp [jsString]
    | bool b => cases b <;> simp [jsString]
    | _ => simp [jsString]
  · intro hn
    unfold createMaterial
    rw [hn]
  · intro num hn
    constructor
    · intro h
      unfold createMaterial
      rw [hn]
      rcases h with h | h <;> simp [h]
    · intro h1 h2
      cases num with
      | nan => cases h1
      | int n =>
        refine ⟨n, rfl, by simpa [JsNum.truthy] using h1, ?_⟩
        unfold createMaterial
        rw [hn]
        simp only [h1, h2, Bool.not_true, Bool.or_self, Bool.false_eq_true, if_false]
        unfold materialCreate
        split
        · rename_i heq
          split at heq
          · cases heq
            exact ⟨rfl, by simp [Reply.status]⟩
          · cases heq
        · rename_i heq
          split at heq
          · cases heq
          · cases heq
            exact ⟨rfl, by simp [Reply.status]⟩

/-- C8 amended, on closed inputs: `model_id = "abc"` and a missing `model_id`
are read as `NaN` and answered 400 with the state unchanged; a missing `name`
with `model_id = 1` is answered 400 as well; a `model_id` whose string
conversion throws leaves the handler without a response, also when `name` is
missing. -/
theorem C8_createMaterial_validation_witness :
    parseIntVal (.str "abc") = some .nan ∧ parseIntVal .undefined = some .nan ∧
    createMaterial chairWorld (wood (.str "abc")) =
      (.json 400 (.error "model_id and name are required."), chairWorld) ∧
    createMaterial chairWorld (wood .undefined) =
      (.json 400 (.error "model_id and name are required."), chairWorld) ∧
    createMaterial chairWorld
        { model_id := .num 1, name := .undefined, data := .undefined,
          thumbnailPath := .undefined } =
      (.json 400 (.error "model_id and name are required."), chairWorld) ∧
    createMaterial chairWorld
        { model_id := .obj none, name := .undefined, data := .undefined,
          thumbnailPath := .undefined } = (.uncaught, chairWorld) :=
  ⟨by decide, by decide,
   ((C8_createMaterial_validation chairWorld (wood (.str "abc"))).2.2 .nan (by decide)).1
     (Or.inl rfl),
   ((C8_createMaterial_validation chairWorld (wood .undefined)).2.2 .nan (by decide)).1
     (Or.inl rfl),
   ((C8_createMaterial_validation chairWorld
      { model_id := .num 1, name := .undefined, data := .undefined,
        thumbnailPath := .undefined }).2.2 (.int 1) (by decide)).1 (Or.inr rfl),
   (C8_createMaterial_validation chairWorld
      { model_id := .obj none, name := .undefined, data := .undefined,
        thumbnailPath := .undefined }).2.1 (by decide)⟩

/-- C9: delete Model leaves the Material records exactly as they were, for
every state and id; the only store calls it adds are lookups and deletes on
the Model table; listing the Materials of any model gives the same answer
after the delete as before, so every Material that referenced the deleted
Model is still listed.  On the spec's example: create Model Chair, create
Material Wood for it, delete Model 1 (204), and the list for model 1 is still
Wood. -/
theorem C9_delete_no_cascade (fullPath : String → String) (w : World) (id : String) :
    (deleteModel fullPath w id).2.store.materials = w.store.materials ∧
    (∀ c ∈ (deleteModel fullPath w id).2.store.calls,
      c ∈ w.store.calls ∨ ∃ n, c = .modelFindUnique n ∨ c = .modelDelete n) ∧
    (∀ model_id, (listMaterialsByModel (deleteModel fullPath w id).2 model_id).1 =
      (listMaterialsByModel w model_id).1) ∧
    (∀ n x, parseInt id = .int n → x ∈ w.store.materials → x.modelId = n →
      ∃ xs, (listMaterialsByModel (deleteModel fullPath w id).2 id).1 =
        .json 200 (.materials xs) ∧ x ∈ xs) ∧
    (deleteModel fullPath (createMaterial chairWorld (wood (.num 1))).2 "1").1 = .send 204 ∧
    (getModel (deleteModel fullPath (createMaterial chairWorld (wood (.num 1))).2 "1").2 "1").1 =
      .json 404 (.error "Model not found") ∧
    (listMaterialsByModel
      (deleteModel fullPath (createMaterial chairWorld (wood (.num 1))).2 "1").2 "1").1 =
      .json 200 (.materials [woodRecord]) := by
  have hmat := deleteModel_materials fullPath w id
  have hlist := listMaterialsByModel_deleteModel fullPath w id
  refine ⟨hmat, ?_, hlist, ?_, ?_, ?_, ?_⟩
  · intro c hc
    cases hp : parseInt id with
    | nan =>
      rw [deleteModel_nan fullPath w id hp] at hc
      exact Or.inl hc
    | int n =>
      have hcalls : (deleteModel fullPath w id).2.store.calls =
          w.store.calls ++ [.modelFindUnique n, .modelDelete n] := by
        cases hm : w.store.models.find? (fun m => decide (m.id = n)) with
        | none =>
          rw [deleteModel_absent fullPath w id n hp hm]
          simp [Store.log]
        | some m =>
          obtain ⟨f1, f2, _, _, h⟩ := deleteModel_present fullPath w id n m hp hm
          rw [h]
          simp [Store.log]
      rw [hcalls] at hc
      simp only [List.mem_append, List.mem_cons, List.mem_singleton, List.not_mem_nil,
        or_false] at hc
      rcases hc with hc | hc | hc
      · exact Or.inl hc
      · exact Or.inr ⟨n, Or.inl hc⟩
      · exact Or.inr ⟨n, Or.inr hc⟩
  · intro n x hp hx hxn
    rw [hlist id]
    unfold listMaterialsByModel
    rw [hp]
    refine ⟨_, rfl, ?_⟩
    unfold materialFindManyWhere
    rw [List.mem_insertionSort]
    exact List.mem_filter.mpr ⟨hx, by simpa using hxn⟩
  · obtain ⟨f1, f2, _, _, h⟩ := deleteModel_present fullPath
      (createMaterial chairWorld (wood (.num 1))).2 "1" 1 chairRecord (by decide) (by decide)
    rw [h]
  · obtain ⟨f1, f2, _, _, h⟩ := deleteModel_present fullPath
      (createMaterial chairWorld (wood (.num 1))).2 "1" 1 chairRecord (by decide) (by decide)
    rw [h, getModel_absent _ "1" 1 (by decide) (find_filter_id _ 1)]
  · rw [listMaterialsByModel_deleteModel]
    decide

/-- C9, on the spec's example: Wood references Model 1 before the delete, and
is in the list for model 1 after it. -/
theorem C9_delete_no_cascade_witness :
    parseInt "1" = .int 1 ∧
    woodRecord ∈ (createMaterial chairWorld (wood (.num 1))).2.store.materials ∧
    ∃ xs, (listMaterialsByModel
        (deleteModel appDir (createMaterial chairWorld (wood (.num 1))).2 "1").2 "1").1 =
      .json 200 (.materials xs) ∧ woodRecord ∈ xs :=
  ⟨by decide, by decide,
   (C9_delete_no_cascade appDir (createMaterial chairWorld (wood (.num 1))).2 "1").2.2.2.1
     1 woodRecord (by decide) (by decide) rfl⟩

/-- C10: the code drops a size of 0 on create.  Posting Chair with `size: 0`
stores `size = null`, although `String(0)` is `"0"` and the update handler,
given the same `size: 0`, stores `"0"`; a non-zero size such as 2048 is stored
as its text by both. -/
theorem C10_create_size_zero_is_null :
    (createModel freshWorld { chair with size := .num 0 }).1 =
      .json 201 (.model { chairRecord with size := none }) ∧
    jsString (.num 0) = some "0" ∧
    (updateModel chairWorld "1" (onlySize (.num 0))).1 =
      .json 200 (.model { chairRecord with size := some "0" }) ∧
    (createModel freshWorld { chair with size := .num 2048 }).1 =
      .json 201 (.model { chairRecord with size := some "2048" }) ∧
    (updateModel chairWorld "1" (onlySize (.num 2048))).1 =
      .json 200 (.model { chairRecord with size := some "2048" }) := by
  decide

/-- C11: the code lets an update empty a name.  Create answers 400 for an
absent and for an empty `name` and stores nothing, but on the state reached by
posting Chair, the update of Model 1 with the patch `{ name: "" }` answers 200
and the store then holds the record with the empty name; that state is
reachable through create and update alone. -/
theorem C11_update_stores_empty_name :
    createModel freshWorld { chair with name := .undefined } =
      (.json 400 (.error "Name and filePath are required."), freshWorld) ∧
    createModel freshWorld { chair with name := .str "" } =
      (.json 400 (.error "Name and filePath are required."), freshWorld) ∧
    (updateModel chairWorld "1" (onlyName (.str ""))).1 =
      .json 200 (.model { chairRecord with name := "" }) ∧
    (updateModel chairWorld "1" (onlyName (.str ""))).2.store.models =
      [{ chairRecord with name := "" }] ∧
    Reachable appDir (updateModel chairWorld "1" (onlyName (.str ""))).2 :=
  ⟨by decide, by decide, by decide, by decide,
   Reachable.step _ (.updateModel "1" (onlyName (.str "")))
     (Reachable.step _ (.createModel chair) (Reachable.init []))⟩

end Server
